import Mathlib

/-!
# System-contract upgrades (`common/systemcontract/upgrade.go`)

A shallow embedding of `UpgradeBuildInSystemContract` and
`applySystemContractUpgrade`, followed by the properties proved about them.

Conventions of the embedding:

* the Go functions mutate a `*state.StateDB` in place and may `panic`; here a
  run is a pure function from the store it is handed to an `Exec`: the store
  as the run leaves it, the calls made on the collaborators in program order,
  and the panic value when the run ended in a `panic`;
* a pointer the code tests against `nil` is an `Option`; a pointer it
  dereferences without a test (the elements of `Configs`) is the value itself;
* package-level variables (`GenesisHash`, the five upgrade maps) and the
  constants of package `params` are explicit arguments.
-/

namespace systemcontract

/-! ## Data model -/

/-- One byte of contract code. -/
abbrev Byte := Fin 256

/-- A `common.Address` (a 20-byte value), identified with the number it encodes. -/
abbrev Address := Nat

/-- A `common.Hash` (a 32-byte value), identified with the number it encodes. -/
abbrev Hash := Nat

/-- Modelled from the spec: `state.StateDB` is not part of the sources at hand.
The spec describes it as a mutable store keyed by account address that exposes
`setCode(address, bytes)` and gives hooks read/write access to account
balances and storage at arbitrary addresses. -/
structure StateDB where
  code : Address → List Byte
  balance : Address → Nat
  storage : Address → Nat → Nat

/-- The store with no code, no balance and no storage anywhere. -/
instance : Inhabited StateDB :=
  ⟨⟨fun _ => [], fun _ => 0, fun _ _ => 0⟩⟩

/-- Modelled from the spec: `statedb.SetCode(addr, code)`, an unconditional
overwrite of the account code at `addr`. -/
def StateDB.SetCode (statedb : StateDB) (addr : Address) (code : List Byte) : StateDB :=
  { statedb with code := fun a => if a = addr then code else statedb.code a }

/-- The type `upgradeHook`: a Go function of `(blockNumber, contractAddr, statedb)` that
may mutate the store and returns an `error` (`none` is Go's `nil` error,
`some msg` an error whose `Error()` text is `msg`). -/
abbrev upgradeHook := Int → Address → StateDB → StateDB × Option String

/-- The struct `UpgradeConfig`. -/
structure UpgradeConfig where
  BeforeUpgrade : Option upgradeHook := none
  AfterUpgrade : Option upgradeHook := none
  ContractAddr : Address
  CommitUrl : String := ""
  Code : String := ""

/-- The struct `Upgrade`. -/
structure Upgrade where
  UpgradeName : String
  Configs : List UpgradeConfig

def mainNet : String := "Mainnet"
def testNet : String := "Testnet"
def defaultNet : String := "Default"

/-! ## `encoding/hex` -/

/-- The errors of Go's `encoding/hex`: `ErrLength` and `InvalidByteError b`. -/
inductive HexError where
  | ErrLength
  | InvalidByteError (b : Nat)
  deriving DecidableEq, Repr

/-- The bytes of one character in a Go string (UTF-8). -/
def utf8Bytes (c : Char) : List Nat :=
  let v := c.toNat
  if v < 0x80 then [v]
  else if v < 0x800 then [0xC0 + v / 0x40, 0x80 + v % 0x40]
  else if v < 0x10000 then [0xE0 + v / 0x1000, 0x80 + v / 0x40 % 0x40, 0x80 + v % 0x40]
  else [0xF0 + v / 0x40000, 0x80 + v / 0x1000 % 0x40, 0x80 + v / 0x40 % 0x40, 0x80 + v % 0x40]

/-- The conversion `[]byte(s)` of a Go string. -/
def stringBytes (s : String) : List Nat :=
  s.toList.flatMap utf8Bytes

/-- The value of one hex digit (`reverseHexTable` of Go's `encoding/hex`):
`none` stands for the table's 0xff entries. -/
def fromHexChar (c : Nat) : Option (Fin 16) :=
  if 48 ≤ c ∧ c ≤ 57 then some (Fin.ofNat (c - 48))
  else if 97 ≤ c ∧ c ≤ 102 then some (Fin.ofNat (c - 97 + 10))
  else if 65 ≤ c ∧ c ≤ 70 then some (Fin.ofNat (c - 65 + 10))
  else none

/-- The byte `(a << 4) | b` of two hex digits. -/
def hexByte (a b : Fin 16) : Byte :=
  ⟨a.val * 16 + b.val, by omega⟩

/-- The loop of Go's `hex.Decode` over the source bytes: pairs are consumed left to
right, the first invalid byte is reported, and a single trailing valid digit
is a length error. -/
def hexDecode : List Nat → Except HexError (List Byte)
  | [] => .ok []
  | [p] =>
    match fromHexChar p with
    | none => .error (.InvalidByteError p)
    | some _ => .error .ErrLength
  | p :: q :: rest =>
    match fromHexChar p, fromHexChar q with
    | none, _ => .error (.InvalidByteError p)
    | some _, none => .error (.InvalidByteError q)
    | some a, some b =>
      match hexDecode rest with
      | .error e => .error e
      | .ok bs => .ok (hexByte a b :: bs)

/-- Go's `hex.DecodeString`, called at line 120 of `upgrade.go`. -/
def hexDecodeString (s : String) : Except HexError (List Byte) :=
  hexDecode (stringBytes s)

/-- One character of the alphabet `0123456789abcdef` of Go's `encoding/hex`. -/
def hexDigit (n : Nat) : Char :=
  if n < 10 then Char.ofNat (48 + n) else Char.ofNat (87 + n)

/-- Go's `hex.EncodeToString`: two lower-case digits per byte. -/
def hexEncodeToString (bs : List Byte) : String :=
  String.mk (bs.flatMap fun b => [hexDigit (b.val / 16), hexDigit (b.val % 16)])

/-! ## `math/big` -/

/-- The conversion of an integer to Go's `int64`: the value is kept modulo 2^64, in the
range from -2^63 to 2^63 - 1. -/
def wrapInt64 (z : Int) : Int :=
  (z + 9223372036854775808) % 18446744073709551616 - 9223372036854775808

/-- Go's `(*big.Int).Int64`, called at line 109 of `upgrade.go`: the low 64 bits of the
absolute value converted to `int64`, negated (in `int64`) when the number is
negative. A block number outside the `int64` range is wrapped. -/
def BigInt.Int64 (x : Int) : Int :=
  let v := wrapInt64 (x.natAbs % 18446744073709551616 : Nat)
  if x < 0 then wrapInt64 (-v) else v

/-! ## Runs -/

/-- The context of a `log.Logger` built by `log.New(ctx...)`. -/
structure Logger where
  ctx : List String
  deriving DecidableEq, Repr

/-- The call `log.New`. -/
def logNew (ctx : List String) : Logger := ⟨ctx⟩

/-- The three messages `applySystemContractUpgrade` logs, with the values they are
formatted from. -/
inductive LogMsg where
  /-- Line 105: `"Empty upgrade config", "height", blockNumber.String()`. -/
  | emptyUpgradeConfig (height : Int)
  /-- Line 109: `"Apply upgrade %s at height %d"`; `height` is the `int64` value
  `blockNumber.Int64()` the line formats. -/
  | applyUpgrade (upgradeName : String) (height : Int)
  /-- Line 111: `"Upgrade contract %s to commit %s"`. -/
  | upgradeContract (contractAddr : Address) (commitUrl : String)
  deriving DecidableEq, Repr

/-- The five forks `UpgradeBuildInSystemContract` tests, in the order of its `if`s. -/
inductive Fork where
  | Ramanujan
  | Niels
  | MirrorSync
  | Bruno
  | H2
  deriving DecidableEq, Repr

/-- A call the code makes on one of its collaborators. -/
inductive Event where
  /-- A call `config.IsOn<fork>(blockNumber)`. -/
  | isOn (fork : Fork) (blockNumber : Int)
  /-- A call `logger.Info`. -/
  | info (logger : Logger) (msg : LogMsg)
  /-- A call `cfg.BeforeUpgrade(blockNumber, cfg.ContractAddr, statedb)`. -/
  | beforeUpgrade (blockNumber : Int) (contractAddr : Address)
  /-- A call `statedb.SetCode(cfg.ContractAddr, newContractCode)`. -/
  | setCode (contractAddr : Address) (code : List Byte)
  /-- A call `cfg.AfterUpgrade(blockNumber, cfg.ContractAddr, statedb)`. -/
  | afterUpgrade (blockNumber : Int) (contractAddr : Address)
  deriving DecidableEq, Repr

/-- The values `applySystemContractUpgrade` panics with, one per `fmt.Errorf`. -/
inductive UpgradeError where
  /-- Line 116: `"contract address: %s, execute beforeUpgrade error: %s"`. -/
  | beforeUpgrade (contractAddr : Address) (err : String)
  /-- Line 122: `"failed to decode new contract code: %s"`. -/
  | decode (err : HexError)
  /-- Line 129: `"contract address: %s, execute afterUpgrade error: %s"`. -/
  | afterUpgrade (contractAddr : Address) (err : String)
  deriving DecidableEq, Repr

/-- What a run leaves behind: the store, the calls made, and the panic value if the
run ended in a panic (`none`: the run returned). -/
structure Exec where
  statedb : StateDB
  trace : List Event
  panic : Option UpgradeError

/-- A run that does nothing. -/
def Exec.skip (statedb : StateDB) : Exec :=
  ⟨statedb, [], none⟩

/-- Sequencing of statements: what follows runs on the store left behind, unless
the run has panicked. -/
def Exec.andThen (e : Exec) (next : StateDB → Exec) : Exec :=
  match e.panic with
  | some _ => e
  | none =>
    let r := next e.statedb
    ⟨r.statedb, e.trace ++ r.trace, r.panic⟩

/-- A call `logger.Info(...)`. -/
def logInfo (logger : Logger) (msg : LogMsg) (statedb : StateDB) : Exec :=
  ⟨statedb, [.info logger msg], none⟩

/-! ## `applySystemContractUpgrade` -/

/-- Lines 113-118: the before hook, when present, and the panic on its error. -/
def runBeforeUpgrade (cfg : UpgradeConfig) (blockNumber : Int) (statedb : StateDB) : Exec :=
  match cfg.BeforeUpgrade with
  | none => Exec.skip statedb
  | some hook =>
    let r := hook blockNumber cfg.ContractAddr statedb
    ⟨r.1, [.beforeUpgrade blockNumber cfg.ContractAddr],
      r.2.map (UpgradeError.beforeUpgrade cfg.ContractAddr)⟩

/-- Lines 120-124: decode `cfg.Code`, panic on a decode error, else `SetCode`. -/
def writeCode (cfg : UpgradeConfig) (statedb : StateDB) : Exec :=
  match hexDecodeString cfg.Code with
  | .error err => ⟨statedb, [], some (.decode err)⟩
  | .ok newContractCode =>
    ⟨statedb.SetCode cfg.ContractAddr newContractCode,
      [.setCode cfg.ContractAddr newContractCode], none⟩

/-- Lines 126-131: the after hook, when present, and the panic on its error. -/
def runAfterUpgrade (cfg : UpgradeConfig) (blockNumber : Int) (statedb : StateDB) : Exec :=
  match cfg.AfterUpgrade with
  | none => Exec.skip statedb
  | some hook =>
    let r := hook blockNumber cfg.ContractAddr statedb
    ⟨r.1, [.afterUpgrade blockNumber cfg.ContractAddr],
      r.2.map (UpgradeError.afterUpgrade cfg.ContractAddr)⟩

/-- Lines 111-131: the body of the loop for one `cfg`. -/
def upgradeStep (blockNumber : Int) (logger : Logger) (cfg : UpgradeConfig)
    (statedb : StateDB) : Exec :=
  (((logInfo logger (.upgradeContract cfg.ContractAddr cfg.CommitUrl) statedb).andThen
    (runBeforeUpgrade cfg blockNumber)).andThen
    (writeCode cfg)).andThen
    (runAfterUpgrade cfg blockNumber)

/-- Lines 110-132: `for _, cfg := range upgrade.Configs`; a panic leaves the loop. -/
def applyConfigs (blockNumber : Int) (logger : Logger) :
    List UpgradeConfig → StateDB → Exec
  | [], statedb => Exec.skip statedb
  | cfg :: rest, statedb =>
    (upgradeStep blockNumber logger cfg statedb).andThen (applyConfigs blockNumber logger rest)

/-- The function `applySystemContractUpgrade` (lines 103-133). -/
def applySystemContractUpgrade (upgrade : Option Upgrade) (blockNumber : Int)
    (statedb : StateDB) (logger : Logger) : Exec :=
  match upgrade with
  | none => logInfo logger (.emptyUpgradeConfig blockNumber) statedb
  | some up =>
    (logInfo logger (.applyUpgrade up.UpgradeName (BigInt.Int64 blockNumber)) statedb).andThen
      (applyConfigs blockNumber logger up.Configs)

/-! ## `UpgradeBuildInSystemContract` -/

/-- The part of `params.ChainConfig` the code uses: its five activation predicates
(`IsOnRamanujan`, `IsOnNiels`, `IsOnMirrorSync`, `IsOnBruno`, `IsOnH2`), each
a function of the block number. Package `params` is not part of the sources
at hand, so the predicates are taken as they come. -/
structure ChainConfig where
  IsOn : Fork → Int → Bool

/-- Modelled from the spec: a chain configuration given by the activation height
of each fork (`none`: the fork is not scheduled), whose predicate is
"edge-triggered at the configured activation height": true at exactly that
block number. -/
def ChainConfig.ofBlocks (activation : Fork → Option Int) : ChainConfig :=
  ⟨fun fork blockNumber => decide (activation fork = some blockNumber)⟩

/-- The two genesis hashes of package `params` the code compares against. -/
structure Params where
  MainnetGenesisHash : Hash
  TestnetGenesisHash : Hash

/-- The five package-level maps `ramanujanUpgrade`, `nielsUpgrade`, `mirrorUpgrade`,
`brunoUpgrade`, `h2Upgrade` (lines 38-46). A Go map from network name to
`*Upgrade` is a function to `Option Upgrade`: a missing key reads as `nil`. -/
structure Registry where
  ramanujanUpgrade : String → Option Upgrade
  nielsUpgrade : String → Option Upgrade
  mirrorUpgrade : String → Option Upgrade
  brunoUpgrade : String → Option Upgrade
  h2Upgrade : String → Option Upgrade

/-- The maps as `make(map[string]*Upgrade)` leaves them (lines 38-46). -/
def Registry.empty : Registry :=
  ⟨fun _ => none, fun _ => none, fun _ => none, fun _ => none, fun _ => none⟩

/-- The map `UpgradeBuildInSystemContract` reads for each fork (lines 79-95). -/
def Registry.table (reg : Registry) : Fork → String → Option Upgrade
  | .Ramanujan => reg.ramanujanUpgrade
  | .Niels => reg.nielsUpgrade
  | .MirrorSync => reg.mirrorUpgrade
  | .Bruno => reg.brunoUpgrade
  | .H2 => reg.h2Upgrade

/-- A map assignment `m[network] = upgrade`. -/
def mapSet (m : String → Option Upgrade) (network : String) (upgrade : Upgrade) :
    String → Option Upgrade :=
  fun k => if k = network then some upgrade else m k

/-- The assignment `<fork>Upgrade[network] = upgrade`, the form of every
registration in `init`. -/
def Registry.register (reg : Registry) (fork : Fork) (network : String) (upgrade : Upgrade) :
    Registry :=
  match fork with
  | .Ramanujan => { reg with ramanujanUpgrade := mapSet reg.ramanujanUpgrade network upgrade }
  | .Niels => { reg with nielsUpgrade := mapSet reg.nielsUpgrade network upgrade }
  | .MirrorSync => { reg with mirrorUpgrade := mapSet reg.mirrorUpgrade network upgrade }
  | .Bruno => { reg with brunoUpgrade := mapSet reg.brunoUpgrade network upgrade }
  | .H2 => { reg with h2Upgrade := mapSet reg.h2Upgrade network upgrade }

/-- The function `init` (lines 49-60). `H2Contract` is the address
`common.HexToAddress(H2Contract)`; the constant is declared outside the
sources at hand. -/
def init (H2Contract : Address) : Registry :=
  Registry.empty.register .H2 defaultNet
    { UpgradeName := "h2"
      Configs := [
        { ContractAddr := H2Contract
          CommitUrl := "https://github.com/binance-chain/bsc-genesis-contract/commit/f4bc161dac5937b8cbd4fe3089c7514c415430f9 fix: bas"
          Code := "" }] }

/-- Lines 66-75: the `switch GenesisHash`. -/
def resolveNetwork (params : Params) (GenesisHash : Hash) : String :=
  if GenesisHash = params.MainnetGenesisHash then mainNet
  else if GenesisHash = params.TestnetGenesisHash then testNet
  else defaultNet

/-- One of the five statements of lines 78-96:
`if config.IsOn<fork>(blockNumber) { applySystemContractUpgrade(<fork>Upgrade[network], ...) }`. -/
def upgradeFork (reg : Registry) (network : String) (logger : Logger) (config : ChainConfig)
    (blockNumber : Int) (fork : Fork) (statedb : StateDB) : Exec :=
  (Exec.mk statedb [.isOn fork blockNumber] none).andThen fun statedb =>
    if config.IsOn fork blockNumber then
      applySystemContractUpgrade (reg.table fork network) blockNumber statedb logger
    else Exec.skip statedb

/-- Lines 77-96: the logger and the five `if` statements, for the network the
`switch` has chosen. -/
def upgradeOnNetwork (reg : Registry) (network : String) (config : ChainConfig)
    (blockNumber : Int) (statedb : StateDB) : Exec :=
  let logger := logNew ["system-contract-upgrade", network]
  ((((upgradeFork reg network logger config blockNumber .Ramanujan statedb).andThen
    (upgradeFork reg network logger config blockNumber .Niels)).andThen
    (upgradeFork reg network logger config blockNumber .MirrorSync)).andThen
    (upgradeFork reg network logger config blockNumber .Bruno)).andThen
    (upgradeFork reg network logger config blockNumber .H2)

/-- Lines 66-96: `UpgradeBuildInSystemContract` past its nil guard. -/
def upgradeBuildIn (params : Params) (reg : Registry) (GenesisHash : Hash)
    (config : ChainConfig) (blockNumber : Int) (statedb : StateDB) : Exec :=
  upgradeOnNetwork reg (resolveNetwork params GenesisHash) config blockNumber statedb

/-- What a call of `UpgradeBuildInSystemContract` leaves behind; the store is
`none` when the call was handed a nil `statedb`. -/
structure Outcome where
  statedb : Option StateDB
  trace : List Event
  panic : Option UpgradeError

/-- The function `UpgradeBuildInSystemContract` (lines 62-101). -/
def UpgradeBuildInSystemContract (params : Params) (reg : Registry) (GenesisHash : Hash)
    (config : Option ChainConfig) (blockNumber : Option Int) (statedb : Option StateDB) :
    Outcome :=
  match config, blockNumber, statedb with
  | some config, some blockNumber, some statedb =>
    let r := upgradeBuildIn params reg GenesisHash config blockNumber statedb
    ⟨some r.statedb, r.trace, r.panic⟩
  | _, _, _ => ⟨statedb, [], none⟩

/-! ## Vocabulary of the properties -/

/-- No step of the bundle has a before or an after hook. -/
def noHooks (cfgs : List UpgradeConfig) : Prop :=
  ∀ cfg ∈ cfgs, cfg.BeforeUpgrade = none ∧ cfg.AfterUpgrade = none

/-- Every `Code` of the bundle is accepted by `hex.DecodeString`. -/
def validCodes (cfgs : List UpgradeConfig) : Prop :=
  ∀ cfg ∈ cfgs, ∃ code, hexDecodeString cfg.Code = .ok code

/-- What the before hook of `cfg` returns on `statedb`: the store it leaves and its
error; without a hook, the store as it was and no error. -/
def beforeResult (cfg : UpgradeConfig) (blockNumber : Int) (statedb : StateDB) :
    StateDB × Option String :=
  match cfg.BeforeUpgrade with
  | none => (statedb, none)
  | some hook => hook blockNumber cfg.ContractAddr statedb

/-- The before hook of `cfg`, called on `statedb`, returns an error. -/
def beforeHookFails (cfg : UpgradeConfig) (blockNumber : Int) (statedb : StateDB) : Prop :=
  ∃ hook err, cfg.BeforeUpgrade = some hook
    ∧ (hook blockNumber cfg.ContractAddr statedb).2 = some err

/-- The after hook of `cfg` returns an error on the store it is called with in a step
that starts on `statedb`: the store left by the before hook, with the decoded
code written at the step's address. -/
def afterHookFails (cfg : UpgradeConfig) (blockNumber : Int) (statedb : StateDB) : Prop :=
  ∃ hook code err, cfg.AfterUpgrade = some hook ∧ hexDecodeString cfg.Code = .ok code
    ∧ (hook blockNumber cfg.ContractAddr
        ((beforeResult cfg blockNumber statedb).1.SetCode cfg.ContractAddr code)).2 = some err

/-- The `Code` of `cfg` fails to hex-decode. -/
def decodeFails (cfg : UpgradeConfig) : Prop :=
  ∃ err, hexDecodeString cfg.Code = .error err

/-- What the after hook of `cfg` returns on `statedb`; without a hook, the store as it
was and no error. -/
def afterResult (cfg : UpgradeConfig) (blockNumber : Int) (statedb : StateDB) :
    StateDB × Option String :=
  match cfg.AfterUpgrade with
  | none => (statedb, none)
  | some hook => hook blockNumber cfg.ContractAddr statedb

/-- The forks in the order of the five `if` statements (lines 78-96). -/
def forkOrder : List Fork :=
  [.Ramanujan, .Niels, .MirrorSync, .Bruno, .H2]

/-- A trace without its `IsOn` calls: what is left are the log lines, the hook calls
and the code writes. -/
def withoutChecks (trace : List Event) : List Event :=
  trace.filter fun ev =>
    match ev with
    | .isOn _ _ => false
    | _ => true

/-- A run with the `IsOn` calls removed from its trace. -/
def Exec.eraseChecks (e : Exec) : Exec :=
  ⟨e.statedb, withoutChecks e.trace, e.panic⟩

/-- The bundles looked up for the forks whose `IsOn` predicate holds at
`blockNumber`, in the order of `forkOrder`; `none` is a fork without a bundle
for `network`. -/
def activeBundles (reg : Registry) (network : String) (config : ChainConfig)
    (blockNumber : Int) : List (Option Upgrade) :=
  (forkOrder.filter fun fork => config.IsOn fork blockNumber).map
    fun fork => reg.table fork network

/-- The bundles applied one after another, each on the store the previous one left;
a panic ends the sequence. -/
def applyBundles (blockNumber : Int) (logger : Logger) (bundles : List (Option Upgrade))
    (statedb : StateDB) : Exec :=
  bundles.foldl
    (fun e upgrade =>
      e.andThen fun st => applySystemContractUpgrade upgrade blockNumber st logger)
    (Exec.skip statedb)

/-! ## Fixtures for the worked instances -/

/-- A store whose account 0xABCD holds the code `01 02 03`. -/
def store0 : StateDB :=
  ⟨fun a => if a = 0xABCD then [1, 2, 3] else [], fun _ => 0, fun _ _ => 0⟩

/-- A logger. -/
def logger0 : Logger := logNew ["system-contract-upgrade", defaultNet]

/-- A hook that writes `v` into storage slot `slot` of the step's contract. -/
def storeHook (slot v : Nat) : upgradeHook :=
  fun _ addr st =>
    ({ st with storage := fun a k => if a = addr ∧ k = slot then v else st.storage a k }, none)

/-- A hook that reads storage slot `slot` of account `src` and records the value it
read in slot `dst` of the step's contract. -/
def copyHook (src : Address) (slot dst : Nat) : upgradeHook :=
  fun _ addr st =>
    ({ st with
        storage := fun a k => if a = addr ∧ k = dst then st.storage src slot else st.storage a k },
      none)

/-- A hook that returns the error `msg` and leaves the store alone. -/
def failHook (msg : String) : upgradeHook :=
  fun _ _ st => (st, some msg)

/-- A bundle whose second step has a failing before hook. -/
def bundleFailing : Upgrade :=
  ⟨"t", [{ ContractAddr := 1, Code := "6001" },
    { ContractAddr := 2, Code := "6002", BeforeUpgrade := some (failHook "boom") },
    { ContractAddr := 3, Code := "6003", BeforeUpgrade := some (storeHook 5 42) }]⟩

/-- The genesis hashes used in the worked instances. -/
def params0 : Params := ⟨100, 200⟩

/-- A bundle of one step writing `code` at 0xABCD. -/
def bundleAt (name code : String) : Upgrade :=
  ⟨name, [{ ContractAddr := 0xABCD, Code := code }]⟩

/-- A configuration that activates the listed forks at block 1000 and nothing else. -/
def configAt1000 (forks : List Fork) : ChainConfig :=
  ChainConfig.ofBlocks fun fork => if fork ∈ forks then some 1000 else none

/-- A bundle whose second step carries a `Code` that is not hex. -/
def bundleMalformed : Upgrade :=
  ⟨"t", [{ ContractAddr := 1, Code := "6001" },
    { ContractAddr := 2, Code := "zz", BeforeUpgrade := some (storeHook 5 42) }]⟩

/-- The hook calls of a step that are made before its code write: the before hook's
call when the step has one. -/
def beforeCalls (cfg : UpgradeConfig) (blockNumber : Int) : List Event :=
  if cfg.BeforeUpgrade.isSome then [.beforeUpgrade blockNumber cfg.ContractAddr] else []

/-- The hook calls of a step that are made after its code write: the after hook's call
when the step has one. -/
def afterCalls (cfg : UpgradeConfig) (blockNumber : Int) : List Event :=
  if cfg.AfterUpgrade.isSome then [.afterUpgrade blockNumber cfg.ContractAddr] else []

/-- A bundle whose second step has a failing after hook. -/
def bundleAfterFailing : Upgrade :=
  ⟨"t", [{ ContractAddr := 1, Code := "6001" },
    { ContractAddr := 2, Code := "6002", BeforeUpgrade := some (storeHook 5 42),
      AfterUpgrade := some (failHook "late") }]⟩

/-- The calls that are handed the store: the hook calls and `SetCode`. -/
def Event.touchesStore : Event → Bool
  | .beforeUpgrade _ _ => true
  | .setCode _ _ => true
  | .afterUpgrade _ _ => true
  | _ => false

/-- One call of `UpgradeBuildInSystemContract` in the life of a process: its arguments
and the value the package variable `GenesisHash` holds when the call is made. -/
structure Call where
  GenesisHash : Hash
  config : ChainConfig
  blockNumber : Int

/-- A sequence of calls of `UpgradeBuildInSystemContract` on one store. Each call
executes the `switch GenesisHash` of lines 66-75 anew; a panic ends the
process. -/
def runCalls (params : Params) (reg : Registry) : List Call → StateDB → Exec
  | [], statedb => Exec.skip statedb
  | call :: rest, statedb =>
    (upgradeBuildIn params reg call.GenesisHash call.config call.blockNumber statedb).andThen
      (runCalls params reg rest)

/-- A sequence of calls in which every call runs lines 77-96 with the same `network`. -/
def runCallsOn (reg : Registry) (network : String) : List Call → StateDB → Exec
  | [], statedb => Exec.skip statedb
  | call :: rest, statedb =>
    (upgradeOnNetwork reg network call.config call.blockNumber statedb).andThen
      (runCallsOn reg network rest)

/-- The spec's reading of the network resolver: the network is resolved for the first
call and every call of the sequence uses that network. -/
def runCallsResolvedOnce (params : Params) (reg : Registry) (calls : List Call)
    (statedb : StateDB) : Exec :=
  match calls with
  | [] => Exec.skip statedb
  | first :: _ => runCallsOn reg (resolveNetwork params first.GenesisHash) calls statedb

/-- Two calls at block 1000 with H2 activating: `GenesisHash` is the mainnet hash at the
first call and an unrecognized hash at the second. -/
def callsChangingGenesis : List Call :=
  [⟨params0.MainnetGenesisHash, configAt1000 [.H2], 1000⟩, ⟨7, configAt1000 [.H2], 1000⟩]

/-- The hook calls among the calls of a trace. -/
def Event.isHookCall : Event → Bool
  | .beforeUpgrade _ _ => true
  | .afterUpgrade _ _ => true
  | _ => false

/-- The hook calls a complete run over `cfgs` makes, in order: for each step the call
of its before hook and the call of its after hook, when present, each with
`blockNumber` and the step's own `ContractAddr`. -/
def hookCalls (blockNumber : Int) (cfgs : List UpgradeConfig) : List Event :=
  cfgs.flatMap fun cfg => beforeCalls cfg blockNumber ++ afterCalls cfg blockNumber

/-- A bundle of two steps with both hooks each. -/
def bundleHooked : Upgrade :=
  ⟨"t", [{ ContractAddr := 1, Code := "6001", BeforeUpgrade := some (storeHook 5 42),
           AfterUpgrade := some (copyHook 1 5 6) },
    { ContractAddr := 2, Code := "6002", BeforeUpgrade := some (copyHook 1 6 7),
      AfterUpgrade := some (storeHook 8 1) }]⟩

/-- The byte is the ASCII code of one of the characters 0-9, a-f, A-F. -/
def isHexByte (b : Nat) : Prop :=
  (48 ≤ b ∧ b ≤ 57) ∨ (97 ≤ b ∧ b ≤ 102) ∨ (65 ≤ b ∧ b ≤ 70)

/-- The character is one of 0-9, a-f, A-F. -/
def isHexDigit (c : Char) : Prop :=
  isHexByte c.toNat

/-- The upper-case form of the ASCII letters a-f; every other byte is left as it is. -/
def hexUpper (b : Nat) : Nat :=
  if 97 ≤ b ∧ b ≤ 102 then b - 32 else b

/-- A hook that records its arguments in the storage of the address it is called with:
the block number in slot 0 and the address in slot 1. -/
def recordHook : upgradeHook :=
  fun blockNumber addr st =>
    ({ st with
        storage := fun a k =>
          if a = addr ∧ k = 0 then blockNumber.toNat
          else if a = addr ∧ k = 1 then addr
          else st.storage a k },
      none)

/-- A bundle whose first step has `recordHook` as before hook and whose second step has
it as after hook. -/
def bundleRecording : Upgrade :=
  ⟨"t", [{ ContractAddr := 1, Code := "6001", BeforeUpgrade := some recordHook },
    { ContractAddr := 2, Code := "6002", AfterUpgrade := some recordHook }]⟩

/-! ## Sequencing lemmas -/

theorem Exec.skip_andThen (statedb : StateDB) (next : StateDB → Exec) :
    (Exec.skip statedb).andThen next = next statedb := by
  simp [Exec.skip, Exec.andThen]

theorem Exec.andThen_skip (e : Exec) : e.andThen Exec.skip = e := by
  cases e with
  | mk s t p => cases p <;> simp [Exec.skip, Exec.andThen]

theorem Exec.andThen_assoc (e : Exec) (f g : StateDB → Exec) :
    (e.andThen f).andThen g = e.andThen fun s => (f s).andThen g := by
  cases e with
  | mk s t p =>
    cases p with
    | some err => simp [Exec.andThen]
    | none =>
      cases h : (f s).panic <;> simp [Exec.andThen, h]

theorem Exec.andThen_of_panic (e : Exec) (next : StateDB → Exec) (err : UpgradeError)
    (h : e.panic = some err) : e.andThen next = e := by
  simp [Exec.andThen, h]

theorem Exec.andThen_congr (e : Exec) (f g : StateDB → Exec) (h : e.panic = none)
    (hfg : f e.statedb = g e.statedb) : e.andThen f = e.andThen g := by
  simp [Exec.andThen, h, hfg]

theorem Exec.andThen_panic (e : Exec) (next : StateDB → Exec) (h : e.panic = none) :
    (e.andThen next).panic = (next e.statedb).panic := by
  simp [Exec.andThen, h]

theorem Exec.andThen_statedb (e : Exec) (next : StateDB → Exec) (h : e.panic = none) :
    (e.andThen next).statedb = (next e.statedb).statedb := by
  simp [Exec.andThen, h]

theorem Exec.andThen_trace (e : Exec) (next : StateDB → Exec) (h : e.panic = none) :
    (e.andThen next).trace = e.trace ++ (next e.statedb).trace := by
  simp [Exec.andThen, h]

theorem applyConfigs_append (blockNumber : Int) (logger : Logger)
    (pre post : List UpgradeConfig) (statedb : StateDB) :
    applyConfigs blockNumber logger (pre ++ post) statedb
      = (applyConfigs blockNumber logger pre statedb).andThen
          (applyConfigs blockNumber logger post) := by
  induction pre generalizing statedb with
  | nil => simp [applyConfigs, Exec.skip_andThen]
  | cons cfg rest ih =>
    simp only [List.cons_append, applyConfigs, Exec.andThen_assoc]
    congr 1
    funext s
    exact ih s

/-! ## Hex lemmas -/

theorem hexDigit_decodes :
    ∀ n : Fin 16, utf8Bytes (hexDigit n.val) = [(hexDigit n.val).toNat]
      ∧ fromHexChar (hexDigit n.val).toNat = some n := by
  decide

theorem hexByte_div_mod (b : Byte) :
    hexByte ⟨b.val / 16, by omega⟩ ⟨b.val % 16, by omega⟩ = b := by
  apply Fin.ext
  simp only [hexByte]
  omega

theorem hexDecode_encode (bs : List Byte) :
    hexDecodeString (hexEncodeToString bs) = .ok bs := by
  unfold hexDecodeString hexEncodeToString stringBytes
  simp only [String.toList]
  induction bs with
  | nil => rfl
  | cons b rest ih =>
    have hi := hexDigit_decodes ⟨b.val / 16, by omega⟩
    have lo := hexDigit_decodes ⟨b.val % 16, by omega⟩
    simp only at hi lo
    simp only [List.flatMap_cons, List.cons_append, List.nil_append, hi.1, lo.1,
      List.singleton_append] at ih ⊢
    simp only [hexDecode, hi.2, lo.2, ih, hexByte_div_mod]

/-! ## Bundles without hooks -/

theorem upgradeStep_noHooks (blockNumber : Int) (logger : Logger) (cfg : UpgradeConfig)
    (statedb : StateDB) (code : List Byte)
    (hb : cfg.BeforeUpgrade = none) (ha : cfg.AfterUpgrade = none)
    (hc : hexDecodeString cfg.Code = .ok code) :
    upgradeStep blockNumber logger cfg statedb
      = ⟨statedb.SetCode cfg.ContractAddr code,
          [.info logger (.upgradeContract cfg.ContractAddr cfg.CommitUrl),
            .setCode cfg.ContractAddr code], none⟩ := by
  simp [upgradeStep, logInfo, runBeforeUpgrade, writeCode, runAfterUpgrade, hb, ha, hc,
    Exec.andThen, Exec.skip]

theorem applyConfigs_noHooks_panic (blockNumber : Int) (logger : Logger)
    (cfgs : List UpgradeConfig) (statedb : StateDB)
    (hooks : noHooks cfgs) (valid : validCodes cfgs) :
    (applyConfigs blockNumber logger cfgs statedb).panic = none := by
  induction cfgs generalizing statedb with
  | nil => rfl
  | cons cfg rest ih =>
    obtain ⟨code, hc⟩ := valid cfg (List.mem_cons_self _ _)
    obtain ⟨hb, ha⟩ := hooks cfg (List.mem_cons_self _ _)
    simp only [applyConfigs]
    rw [Exec.andThen_panic _ _ (by rw [upgradeStep_noHooks _ _ _ _ code hb ha hc])]
    exact ih _ (fun c hm => hooks c (List.mem_cons_of_mem _ hm))
      (fun c hm => valid c (List.mem_cons_of_mem _ hm))

theorem applyConfigs_noHooks_code_other (blockNumber : Int) (logger : Logger)
    (cfgs : List UpgradeConfig) (statedb : StateDB) (a : Address)
    (hooks : noHooks cfgs) (valid : validCodes cfgs)
    (other : ∀ cfg ∈ cfgs, cfg.ContractAddr ≠ a) :
    (applyConfigs blockNumber logger cfgs statedb).statedb.code a = statedb.code a := by
  induction cfgs generalizing statedb with
  | nil => rfl
  | cons cfg rest ih =>
    obtain ⟨code, hc⟩ := valid cfg (List.mem_cons_self _ _)
    obtain ⟨hb, ha⟩ := hooks cfg (List.mem_cons_self _ _)
    have hne := other cfg (List.mem_cons_self _ _)
    simp only [applyConfigs]
    rw [Exec.andThen_statedb _ _ (by rw [upgradeStep_noHooks _ _ _ _ code hb ha hc])]
    rw [ih _ (fun c hm => hooks c (List.mem_cons_of_mem _ hm))
      (fun c hm => valid c (List.mem_cons_of_mem _ hm))
      (fun c hm => other c (List.mem_cons_of_mem _ hm))]
    rw [upgradeStep_noHooks _ _ _ _ code hb ha hc]
    simp [StateDB.SetCode, Ne.symm hne]

/-! ## One step and the loop -/

theorem foldl_andThen_upgradeStep (blockNumber : Int) (logger : Logger)
    (cfgs : List UpgradeConfig) (e : Exec) :
    cfgs.foldl (fun e cfg => e.andThen (upgradeStep blockNumber logger cfg)) e
      = e.andThen (applyConfigs blockNumber logger cfgs) := by
  induction cfgs generalizing e with
  | nil =>
    have h : applyConfigs blockNumber logger [] = Exec.skip := by
      funext s; rfl
    simp [h, Exec.andThen_skip]
  | cons cfg rest ih =>
    simp only [List.foldl_cons, ih, Exec.andThen_assoc]
    rfl

theorem upgradeStep_panic_iff (blockNumber : Int) (logger : Logger) (cfg : UpgradeConfig)
    (statedb : StateDB) :
    (upgradeStep blockNumber logger cfg statedb).panic ≠ none
      ↔ beforeHookFails cfg blockNumber statedb ∨ decodeFails cfg
          ∨ afterHookFails cfg blockNumber statedb := by
  unfold beforeHookFails decodeFails afterHookFails beforeResult
  cases hb : cfg.BeforeUpgrade with
  | none =>
    cases hc : hexDecodeString cfg.Code with
    | error e =>
      have hp : (upgradeStep blockNumber logger cfg statedb).panic ≠ none := by
        simp [upgradeStep, logInfo, runBeforeUpgrade, writeCode, Exec.andThen, Exec.skip, hb, hc]
      exact ⟨fun _ => Or.inr (Or.inl ⟨e, rfl⟩), fun _ => hp⟩
    | ok code =>
      cases ha : cfg.AfterUpgrade with
      | none =>
        simp [upgradeStep, logInfo, runBeforeUpgrade, writeCode, runAfterUpgrade, Exec.andThen,
          Exec.skip, hb, hc, ha]
      | some after =>
        cases hr : (after blockNumber cfg.ContractAddr
          (statedb.SetCode cfg.ContractAddr code)).2 <;>
        simp [upgradeStep, logInfo, runBeforeUpgrade, writeCode, runAfterUpgrade, Exec.andThen,
          Exec.skip, hb, hc, ha, hr]
  | some before =>
    cases hr : (before blockNumber cfg.ContractAddr statedb).2 with
    | some err =>
      simp [upgradeStep, logInfo, runBeforeUpgrade, Exec.andThen, hb, hr]
    | none =>
      cases hc : hexDecodeString cfg.Code with
      | error e =>
        have hp : (upgradeStep blockNumber logger cfg statedb).panic ≠ none := by
          simp [upgradeStep, logInfo, runBeforeUpgrade, writeCode, Exec.andThen, hb, hc, hr]
        exact ⟨fun _ => Or.inr (Or.inl ⟨e, rfl⟩), fun _ => hp⟩
      | ok code =>
        cases ha : cfg.AfterUpgrade with
        | none =>
          simp [upgradeStep, logInfo, runBeforeUpgrade, writeCode, runAfterUpgrade,
            Exec.andThen, Exec.skip, hb, hc, ha, hr]
        | some after =>
          cases hr2 : (after blockNumber cfg.ContractAddr
            ((before blockNumber cfg.ContractAddr statedb).1.SetCode cfg.ContractAddr code)).2 <;>
          simp [upgradeStep, logInfo, runBeforeUpgrade, writeCode, runAfterUpgrade,
            Exec.andThen, Exec.skip, hb, hc, ha, hr, hr2]

/-! ## The trace of a bundle holds no `IsOn` call -/

theorem Exec.eraseChecks_andThen (e : Exec) (next : StateDB → Exec) :
    (e.andThen next).eraseChecks = e.eraseChecks.andThen fun s => (next s).eraseChecks := by
  cases e with
  | mk s t p =>
    cases p <;> simp [Exec.andThen, Exec.eraseChecks, withoutChecks]

theorem upgradeStep_eraseChecks (blockNumber : Int) (logger : Logger) (cfg : UpgradeConfig)
    (statedb : StateDB) :
    (upgradeStep blockNumber logger cfg statedb).eraseChecks
      = upgradeStep blockNumber logger cfg statedb := by
  have h1 : ∀ s, (runBeforeUpgrade cfg blockNumber s).eraseChecks
      = runBeforeUpgrade cfg blockNumber s := by
    intro s
    unfold runBeforeUpgrade
    cases cfg.BeforeUpgrade <;> rfl
  have h2 : ∀ s, (writeCode cfg s).eraseChecks = writeCode cfg s := by
    intro s
    unfold writeCode
    cases hexDecodeString cfg.Code <;> rfl
  have h3 : ∀ s, (runAfterUpgrade cfg blockNumber s).eraseChecks
      = runAfterUpgrade cfg blockNumber s := by
    intro s
    unfold runAfterUpgrade
    cases cfg.AfterUpgrade <;> rfl
  simp only [upgradeStep, Exec.eraseChecks_andThen, h1, h2, h3]
  rfl

theorem applyConfigs_eraseChecks (blockNumber : Int) (logger : Logger)
    (cfgs : List UpgradeConfig) (statedb : StateDB) :
    (applyConfigs blockNumber logger cfgs statedb).eraseChecks
      = applyConfigs blockNumber logger cfgs statedb := by
  induction cfgs generalizing statedb with
  | nil => rfl
  | cons cfg rest ih =>
    simp only [applyConfigs, Exec.eraseChecks_andThen, upgradeStep_eraseChecks]
    congr 1
    funext s
    exact ih s

theorem applySystemContractUpgrade_eraseChecks (upgrade : Option Upgrade) (blockNumber : Int)
    (statedb : StateDB) (logger : Logger) :
    (applySystemContractUpgrade upgrade blockNumber statedb logger).eraseChecks
      = applySystemContractUpgrade upgrade blockNumber statedb logger := by
  cases upgrade with
  | none => rfl
  | some up =>
    simp only [applySystemContractUpgrade, Exec.eraseChecks_andThen]
    have h : (fun s => (applyConfigs blockNumber logger up.Configs s).eraseChecks)
        = applyConfigs blockNumber logger up.Configs := by
      funext s
      exact applyConfigs_eraseChecks _ _ _ s
    rw [h]
    rfl

/-! ## The five forks -/

theorem upgradeFork_eraseChecks (reg : Registry) (network : String) (logger : Logger)
    (config : ChainConfig) (blockNumber : Int) (fork : Fork) (statedb : StateDB) :
    (upgradeFork reg network logger config blockNumber fork statedb).eraseChecks
      = if config.IsOn fork blockNumber then
          applySystemContractUpgrade (reg.table fork network) blockNumber statedb logger
        else Exec.skip statedb := by
  unfold upgradeFork
  rw [Exec.eraseChecks_andThen]
  cases h : config.IsOn fork blockNumber
  · simp [Exec.andThen, Exec.eraseChecks, Exec.skip, withoutChecks]
  · simp only [if_true, applySystemContractUpgrade_eraseChecks]
    simp [Exec.andThen, Exec.eraseChecks, withoutChecks]

theorem upgradeOnNetwork_eq_foldl (reg : Registry) (network : String) (config : ChainConfig)
    (blockNumber : Int) (statedb : StateDB) :
    upgradeOnNetwork reg network config blockNumber statedb
      = forkOrder.foldl
          (fun e fork => e.andThen
            (upgradeFork reg network (logNew ["system-contract-upgrade", network]) config
              blockNumber fork))
          (Exec.skip statedb) := by
  simp [upgradeOnNetwork, forkOrder, Exec.skip_andThen]

theorem foldl_upgradeFork_eraseChecks (reg : Registry) (network : String) (logger : Logger)
    (config : ChainConfig) (blockNumber : Int) (forks : List Fork) (e : Exec) :
    (forks.foldl (fun e fork => e.andThen
        (upgradeFork reg network logger config blockNumber fork)) e).eraseChecks
      = ((forks.filter fun fork => config.IsOn fork blockNumber).map
          fun fork => reg.table fork network).foldl
          (fun e upgrade =>
            e.andThen fun st => applySystemContractUpgrade upgrade blockNumber st logger)
          e.eraseChecks := by
  induction forks generalizing e with
  | nil => rfl
  | cons fork rest ih =>
    simp only [List.foldl_cons, ih, Exec.eraseChecks_andThen, upgradeFork_eraseChecks]
    cases h : config.IsOn fork blockNumber
    · simp only [List.filter_cons, h]
      have hs : (fun s : StateDB => if false = true then
          applySystemContractUpgrade (reg.table fork network) blockNumber s logger
          else Exec.skip s) = Exec.skip := by
        funext s; simp
      rw [hs, Exec.andThen_skip]
      rfl
    · simp only [List.filter_cons, h, if_true, List.map_cons, List.foldl_cons]

theorem foldl_present_bundles (blockNumber : Int) (logger : Logger)
    (bundles : List (Option Upgrade)) (e e' : Exec)
    (hs : e'.statedb = e.statedb) (hp : e'.panic = e.panic) :
    (((bundles.filterMap id).map some).foldl
        (fun e upgrade =>
          e.andThen fun st => applySystemContractUpgrade upgrade blockNumber st logger)
        e').statedb
      = (bundles.foldl
          (fun e upgrade =>
            e.andThen fun st => applySystemContractUpgrade upgrade blockNumber st logger)
          e).statedb
    ∧ (((bundles.filterMap id).map some).foldl
        (fun e upgrade =>
          e.andThen fun st => applySystemContractUpgrade upgrade blockNumber st logger)
        e').panic
      = (bundles.foldl
          (fun e upgrade =>
            e.andThen fun st => applySystemContractUpgrade upgrade blockNumber st logger)
          e).panic := by
  induction bundles generalizing e e' with
  | nil => exact ⟨hs, hp⟩
  | cons b rest ih =>
    cases b with
    | none =>
      simp only [List.filterMap_cons, id, List.foldl_cons]
      apply ih
      · cases h : e.panic <;> simp [Exec.andThen, h, hs, applySystemContractUpgrade, logInfo]
      · cases h : e.panic <;> simp [Exec.andThen, h, hp, applySystemContractUpgrade, logInfo]
    | some up =>
      simp only [List.filterMap_cons, id, List.map_cons, List.foldl_cons]
      apply ih
      · cases h : e.panic <;> simp [Exec.andThen, h, hp ▸ h, hs, hp]
      · cases h : e.panic <;> simp [Exec.andThen, h, hs, hp]

theorem mapSet_comm (m : String → Option Upgrade) (n1 n2 : String) (u1 u2 : Upgrade)
    (h : n1 ≠ n2) : mapSet (mapSet m n1 u1) n2 u2 = mapSet (mapSet m n2 u2) n1 u1 := by
  funext k
  simp only [mapSet]
  by_cases h1 : k = n1
  · by_cases h2 : k = n2
    · exact absurd (h1.symm.trans h2) h
    · simp [h1, h2, h]
  · by_cases h2 : k = n2
    · simp [h2, Ne.symm h]
    · simp [h1, h2]

theorem Registry.register_comm (reg : Registry) (f1 f2 : Fork) (n1 n2 : String)
    (u1 u2 : Upgrade) (h : f1 ≠ f2 ∨ n1 ≠ n2) :
    (reg.register f1 n1 u1).register f2 n2 u2 = (reg.register f2 n2 u2).register f1 n1 u1 := by
  cases f1 <;> cases f2 <;> simp [Registry.register] at h ⊢ <;> exact mapSet_comm _ _ _ _ _ h

theorem applyConfigs_panic_iff (blockNumber : Int) (logger : Logger)
    (cfgs : List UpgradeConfig) (statedb : StateDB) :
    (applyConfigs blockNumber logger cfgs statedb).panic ≠ none
      ↔ ∃ pre cfg post, cfgs = pre ++ cfg :: post
          ∧ (applyConfigs blockNumber logger pre statedb).panic = none
          ∧ (upgradeStep blockNumber logger cfg
              (applyConfigs blockNumber logger pre statedb).statedb).panic ≠ none := by
  induction cfgs generalizing statedb with
  | nil =>
    constructor
    · intro h; exact absurd rfl h
    · rintro ⟨pre, cfg, post, h, _⟩
      simp at h
  | cons c rest ih =>
    simp only [applyConfigs]
    cases hstep : (upgradeStep blockNumber logger c statedb).panic with
    | some err =>
      rw [Exec.andThen_of_panic _ _ err hstep]
      constructor
      · intro _
        exact ⟨[], c, rest, rfl, rfl, by simp [applyConfigs, Exec.skip, hstep]⟩
      · intro _
        simp [hstep]
    | none =>
      rw [Exec.andThen_panic _ _ hstep, ih]
      constructor
      · rintro ⟨pre, cfg, post, hsplit, hreach, hfail⟩
        refine ⟨c :: pre, cfg, post, by simp [hsplit], ?_, ?_⟩
        · simp only [applyConfigs]
          rw [Exec.andThen_panic _ _ hstep]
          exact hreach
        · simp only [applyConfigs]
          rw [Exec.andThen_statedb _ _ hstep]
          exact hfail
      · rintro ⟨pre, cfg, post, hsplit, hreach, hfail⟩
        cases pre with
        | nil =>
          simp only [List.nil_append, List.cons.injEq] at hsplit
          obtain ⟨rfl, rfl⟩ := hsplit
          exact absurd hstep hfail
        | cons c' pre' =>
          simp only [List.cons_append, List.cons.injEq] at hsplit
          obtain ⟨rfl, rfl⟩ := hsplit
          simp only [applyConfigs] at hreach hfail
          rw [Exec.andThen_panic _ _ hstep] at hreach
          rw [Exec.andThen_statedb _ _ hstep] at hfail
          exact ⟨pre', cfg, post, rfl, hreach, hfail⟩

/-! ## The `int64` value of the block number -/

theorem wrapInt64_range (z : Int) :
    -9223372036854775808 ≤ wrapInt64 z ∧ wrapInt64 z < 9223372036854775808 := by
  unfold wrapInt64
  omega

theorem wrapInt64_of_range (z : Int) (lo : -9223372036854775808 ≤ z)
    (hi : z < 9223372036854775808) : wrapInt64 z = z := by
  unfold wrapInt64
  omega

theorem BigInt.Int64_range (x : Int) :
    -9223372036854775808 ≤ BigInt.Int64 x ∧ BigInt.Int64 x < 9223372036854775808 := by
  unfold BigInt.Int64
  simp only []
  split
  · exact wrapInt64_range _
  · exact wrapInt64_range _

theorem BigInt.Int64_of_range (x : Int) (lo : -9223372036854775808 ≤ x)
    (hi : x < 9223372036854775808) : BigInt.Int64 x = x := by
  unfold BigInt.Int64
  simp only []
  split
  · rename_i hneg
    have h1 : ((x.natAbs % 18446744073709551616 : Nat) : Int) = -x := by omega
    rw [h1]
    by_cases hx : x = -9223372036854775808
    · subst hx; decide
    · rw [wrapInt64_of_range (-x) (by omega) (by omega), neg_neg]
      exact wrapInt64_of_range x lo hi
  · rename_i hpos
    have h1 : ((x.natAbs % 18446744073709551616 : Nat) : Int) = x := by omega
    rw [h1]
    exact wrapInt64_of_range x lo hi

theorem BigInt.Int64_examples :
    BigInt.Int64 1000 = 1000
      ∧ BigInt.Int64 9223372036854775807 = 9223372036854775807
      ∧ BigInt.Int64 9223372036854775808 = -9223372036854775808
      ∧ BigInt.Int64 18446744073709551621 = 5
      ∧ BigInt.Int64 (-9223372036854775808) = -9223372036854775808
      ∧ BigInt.Int64 (-9223372036854775809) = 9223372036854775807 := by
  decide

/-! ## The properties -/

/-- C1 (round trip, unconditional overwrite): on a bundle without hooks whose every
`Code` is valid hex and whose last step targeting `a` carries the hex
encoding of `X`, `applySystemContractUpgrade` returns without a panic and the
code stored at `a` afterwards is `X`, whatever the store held before. -/
theorem applySystemContractUpgrade_roundTrip (X : List Byte) (a : Address)
    (blockNumber : Int) (statedb : StateDB) (logger : Logger) (up : Upgrade)
    (pre post : List UpgradeConfig) (cfg : UpgradeConfig)
    (split : up.Configs = pre ++ cfg :: post)
    (hooks : noHooks up.Configs) (valid : validCodes up.Configs)
    (target : cfg.ContractAddr = a) (code : cfg.Code = hexEncodeToString X)
    (last : ∀ c ∈ post, c.ContractAddr ≠ a) :
    (applySystemContractUpgrade (some up) blockNumber statedb logger).panic = none
      ∧ (applySystemContractUpgrade (some up) blockNumber statedb logger).statedb.code a = X := by
  have hpre : noHooks pre ∧ validCodes pre :=
    ⟨fun c hm => hooks c (by rw [split]; exact List.mem_append_left _ hm),
      fun c hm => valid c (by rw [split]; exact List.mem_append_left _ hm)⟩
  have hpost : noHooks post ∧ validCodes post :=
    ⟨fun c hm => hooks c (by rw [split]; simp [hm]),
      fun c hm => valid c (by rw [split]; simp [hm])⟩
  have hcfg := hooks cfg (by rw [split]; simp)
  have hdec : hexDecodeString cfg.Code = .ok X := by rw [code]; exact hexDecode_encode X
  constructor
  · simp only [applySystemContractUpgrade]
    rw [Exec.andThen_panic _ _ rfl]
    exact applyConfigs_noHooks_panic _ _ _ _ hooks valid
  · simp only [applySystemContractUpgrade]
    rw [Exec.andThen_statedb _ _ rfl, split, applyConfigs_append,
      Exec.andThen_statedb _ _ (applyConfigs_noHooks_panic _ _ _ _ hpre.1 hpre.2)]
    simp only [applyConfigs]
    rw [Exec.andThen_statedb _ _ (by rw [upgradeStep_noHooks _ _ _ _ X hcfg.1 hcfg.2 hdec]),
      applyConfigs_noHooks_code_other _ _ _ _ a hpost.1 hpost.2 last,
      upgradeStep_noHooks _ _ _ _ X hcfg.1 hcfg.2 hdec]
    simp [StateDB.SetCode, target]

/-- C2 (absent bundle): with a nil bundle `applySystemContractUpgrade` returns without
a panic, leaves the store as it was, and its only call is the one
informational log line: no hook runs and no code is written. -/
theorem applySystemContractUpgrade_nil (blockNumber : Int) (statedb : StateDB)
    (logger : Logger) :
    (applySystemContractUpgrade none blockNumber statedb logger).panic = none
      ∧ (applySystemContractUpgrade none blockNumber statedb logger).statedb = statedb
      ∧ (applySystemContractUpgrade none blockNumber statedb logger).trace
          = [.info logger (.emptyUpgradeConfig blockNumber)] :=
  ⟨rfl, rfl, rfl⟩

/-- An instance of C1: steps at 0xABCD with codes `00` then `6001`, then a step
elsewhere; the store ends with `60 01` at 0xABCD in place of `01 02 03`. -/
theorem applySystemContractUpgrade_roundTrip_witness :
    store0.code 0xABCD = [1, 2, 3]
      ∧ (applySystemContractUpgrade
          (some ⟨"t", [{ ContractAddr := 0xABCD, Code := "00" },
            { ContractAddr := 0xABCD, Code := "6001" }, { ContractAddr := 7, Code := "" }]⟩)
          1000 store0 logger0).panic = none
      ∧ (applySystemContractUpgrade
          (some ⟨"t", [{ ContractAddr := 0xABCD, Code := "00" },
            { ContractAddr := 0xABCD, Code := "6001" }, { ContractAddr := 7, Code := "" }]⟩)
          1000 store0 logger0).statedb.code 0xABCD = [0x60, 0x01] :=
  ⟨rfl, applySystemContractUpgrade_roundTrip [0x60, 0x01] 0xABCD 1000 store0 logger0
    ⟨"t", [{ ContractAddr := 0xABCD, Code := "00" },
      { ContractAddr := 0xABCD, Code := "6001" }, { ContractAddr := 7, Code := "" }]⟩
    [{ ContractAddr := 0xABCD, Code := "00" }] [{ ContractAddr := 7, Code := "" }]
    { ContractAddr := 0xABCD, Code := "6001" } rfl
    (by intro c hc; simp at hc; rcases hc with rfl | rfl | rfl <;> exact ⟨rfl, rfl⟩)
    (by intro c hc; simp at hc; rcases hc with rfl | rfl | rfl <;> exact ⟨_, rfl⟩)
    rfl (by decide) (by intro c hc; simp at hc; subst hc; decide)⟩

/-- C3 (declared order, state threaded through): `applySystemContractUpgrade` is the
left fold of the one-step run over `Configs` in slice order, started from
the log line of line 109 (which carries `blockNumber.Int64()`); on a two-step
bundle whose first step completes, the second step runs on exactly the store
the first step left; and a value the first step's hook wrote is the value the
second step's hook reads. -/
theorem applySystemContractUpgrade_steps_in_order (up : Upgrade) (blockNumber : Int)
    (statedb : StateDB) (logger : Logger) :
    applySystemContractUpgrade (some up) blockNumber statedb logger
        = up.Configs.foldl (fun e cfg => e.andThen (upgradeStep blockNumber logger cfg))
            (logInfo logger (.applyUpgrade up.UpgradeName (BigInt.Int64 blockNumber)) statedb)
      ∧ (∀ (name : String) (c1 c2 : UpgradeConfig),
          (upgradeStep blockNumber logger c1 statedb).panic = none →
          applySystemContractUpgrade (some ⟨name, [c1, c2]⟩) blockNumber statedb logger
            = ⟨(upgradeStep blockNumber logger c2
                  (upgradeStep blockNumber logger c1 statedb).statedb).statedb,
                .info logger (.applyUpgrade name (BigInt.Int64 blockNumber))
                  :: ((upgradeStep blockNumber logger c1 statedb).trace
                    ++ (upgradeStep blockNumber logger c2
                        (upgradeStep blockNumber logger c1 statedb).statedb).trace),
                (upgradeStep blockNumber logger c2
                  (upgradeStep blockNumber logger c1 statedb).statedb).panic⟩)
      ∧ (∀ (name : String) (c1 c2 : UpgradeConfig) (h1 : upgradeHook) (src : Address)
          (slot dst v : Nat) (code1 code2 : List Byte),
          c1.BeforeUpgrade = some h1 → c1.AfterUpgrade = none →
          hexDecodeString c1.Code = .ok code1 →
          (h1 blockNumber c1.ContractAddr statedb).2 = none →
          (h1 blockNumber c1.ContractAddr statedb).1.storage src slot = v →
          c2.BeforeUpgrade = some (copyHook src slot dst) → c2.AfterUpgrade = none →
          hexDecodeString c2.Code = .ok code2 →
          (applySystemContractUpgrade (some ⟨name, [c1, c2]⟩) blockNumber statedb logger).panic
              = none
            ∧ (applySystemContractUpgrade (some ⟨name, [c1, c2]⟩) blockNumber statedb
                logger).statedb.storage c2.ContractAddr dst = v) := by
  refine ⟨?_, ?_, ?_⟩
  · rw [foldl_andThen_upgradeStep]
    rfl
  · intro name c1 c2 h
    cases h2 : (upgradeStep blockNumber logger c2
      (upgradeStep blockNumber logger c1 statedb).statedb).panic <;>
    simp [applySystemContractUpgrade, applyConfigs, Exec.andThen, Exec.skip, logInfo, h, h2]
  · intro name c1 c2 h1 src slot dst v code1 code2 b1 a1 d1 e1 w b2 a2 d2
    simp [applySystemContractUpgrade, applyConfigs, upgradeStep, logInfo, runBeforeUpgrade,
      writeCode, runAfterUpgrade, Exec.andThen, Exec.skip, b1, a1, d1, e1, b2, a2, d2,
      copyHook, StateDB.SetCode, w]

/-- An instance of C3: step 1's hook writes 42 into slot 5 of account 1, step 2's hook
copies what it reads there into slot 9 of account 2, which ends up holding 42. At
block 2^63 the fold starts from the log line with the wrapped height -2^63. -/
theorem applySystemContractUpgrade_steps_in_order_witness :
    store0.storage 2 9 = 0
      ∧ (applySystemContractUpgrade
          (some ⟨"t", [{ ContractAddr := 1, Code := "6001", BeforeUpgrade := some (storeHook 5 42) },
            { ContractAddr := 2, Code := "6002", BeforeUpgrade := some (copyHook 1 5 9) }]⟩)
          1000 store0 logger0).panic = none
      ∧ (applySystemContractUpgrade
          (some ⟨"t", [{ ContractAddr := 1, Code := "6001", BeforeUpgrade := some (storeHook 5 42) },
            { ContractAddr := 2, Code := "6002", BeforeUpgrade := some (copyHook 1 5 9) }]⟩)
          1000 store0 logger0).statedb.storage 2 9 = 42
      ∧ applySystemContractUpgrade (some ⟨"t", []⟩) 9223372036854775808 store0 logger0
        = logInfo logger0 (.applyUpgrade "t" (-9223372036854775808)) store0 :=
  ⟨rfl, ((applySystemContractUpgrade_steps_in_order ⟨"t", []⟩ 1000 store0 logger0).2.2 "t"
    { ContractAddr := 1, Code := "6001", BeforeUpgrade := some (storeHook 5 42) }
    { ContractAddr := 2, Code := "6002", BeforeUpgrade := some (copyHook 1 5 9) }
    (storeHook 5 42) 1 5 9 42 [0x60, 0x01] [0x60, 0x02] rfl rfl rfl rfl rfl rfl rfl rfl).1,
    ((applySystemContractUpgrade_steps_in_order ⟨"t", []⟩ 1000 store0 logger0).2.2 "t"
    { ContractAddr := 1, Code := "6001", BeforeUpgrade := some (storeHook 5 42) }
    { ContractAddr := 2, Code := "6002", BeforeUpgrade := some (copyHook 1 5 9) }
    (storeHook 5 42) 1 5 9 42 [0x60, 0x01] [0x60, 0x02] rfl rfl rfl rfl rfl rfl rfl rfl).2,
    (applySystemContractUpgrade_steps_in_order ⟨"t", []⟩ 9223372036854775808 store0
      logger0).1⟩

/-- C4 (a failing hook stops the run): when step `i` is reached and its before hook or
its after hook returns an error, `applySystemContractUpgrade` panics, and
the run (store, calls made, panic value) is the run of the bundle cut off
after step `i`: no hook call and no code write of a later step takes place. -/
theorem applySystemContractUpgrade_hook_failure_stops (up : Upgrade) (blockNumber : Int)
    (statedb : StateDB) (logger : Logger) (pre post : List UpgradeConfig) (cfg : UpgradeConfig)
    (split : up.Configs = pre ++ cfg :: post)
    (reached : (applyConfigs blockNumber logger pre statedb).panic = none)
    (failed : beforeHookFails cfg blockNumber (applyConfigs blockNumber logger pre statedb).statedb
      ∨ afterHookFails cfg blockNumber (applyConfigs blockNumber logger pre statedb).statedb) :
    (applySystemContractUpgrade (some up) blockNumber statedb logger).panic ≠ none
      ∧ applySystemContractUpgrade (some up) blockNumber statedb logger
          = applySystemContractUpgrade (some ⟨up.UpgradeName, pre ++ [cfg]⟩) blockNumber statedb
              logger := by
  have hstep : (upgradeStep blockNumber logger cfg
      (applyConfigs blockNumber logger pre statedb).statedb).panic ≠ none := by
    rw [upgradeStep_panic_iff]
    rcases failed with h | h
    · exact Or.inl h
    · exact Or.inr (Or.inr h)
  obtain ⟨err, herr⟩ := Option.ne_none_iff_exists'.mp hstep
  have hcut : applyConfigs blockNumber logger (pre ++ cfg :: post) statedb
      = applyConfigs blockNumber logger (pre ++ [cfg]) statedb := by
    rw [applyConfigs_append, applyConfigs_append]
    apply Exec.andThen_congr _ _ _ reached
    simp only [applyConfigs]
    rw [Exec.andThen_of_panic _ _ err herr, Exec.andThen_of_panic _ _ err herr]
  have heq : applySystemContractUpgrade (some up) blockNumber statedb logger
      = applySystemContractUpgrade (some ⟨up.UpgradeName, pre ++ [cfg]⟩) blockNumber statedb
          logger := by
    simp only [applySystemContractUpgrade, split]
    exact Exec.andThen_congr _ _ _ rfl hcut
  refine ⟨?_, heq⟩
  rw [heq]
  simp only [applySystemContractUpgrade]
  rw [Exec.andThen_panic _ _ rfl, applyConfigs_append]
  change ((applyConfigs blockNumber logger pre statedb).andThen
    (applyConfigs blockNumber logger [cfg])).panic ≠ none
  rw [Exec.andThen_panic _ _ reached]
  simp only [applyConfigs]
  rw [Exec.andThen_of_panic _ _ err herr, herr]
  simp

/-- An instance of C4: the second of three steps has a failing before hook; the run
panics and is the run of the first two steps alone. -/
theorem applySystemContractUpgrade_hook_failure_stops_witness :
    (applySystemContractUpgrade (some bundleFailing) 1000 store0 logger0).panic ≠ none
      ∧ applySystemContractUpgrade (some bundleFailing) 1000 store0 logger0
          = applySystemContractUpgrade
              (some ⟨"t", [{ ContractAddr := 1, Code := "6001" }]
                ++ [{ ContractAddr := 2, Code := "6002",
                      BeforeUpgrade := some (failHook "boom") }]⟩)
              1000 store0 logger0 :=
  applySystemContractUpgrade_hook_failure_stops bundleFailing 1000 store0 logger0
    [{ ContractAddr := 1, Code := "6001" }]
    [{ ContractAddr := 3, Code := "6003", BeforeUpgrade := some (storeHook 5 42) }]
    { ContractAddr := 2, Code := "6002", BeforeUpgrade := some (failHook "boom") }
    rfl rfl (Or.inl ⟨failHook "boom", "boom", rfl, rfl⟩)

/-- C5 (fixed fork order): past the nil guard, `UpgradeBuildInSystemContract` leaves
the store, the panic value and (apart from the `IsOn` calls) the trace of
applying, each on the store the previous one left, the bundles of the forks
Ramanujan, Niels, MirrorSync, Bruno, H2 in this order, restricted to the forks
whose `IsOn` predicate holds at the block number. A fork without a bundle for
the network changes neither the store nor the panic value of the sequence.
The result is the same whichever of two registrations was made first. -/
theorem UpgradeBuildInSystemContract_fork_order (params : Params) (reg : Registry)
    (GenesisHash : Hash) (config : ChainConfig) (blockNumber : Int) (statedb : StateDB) :
    (UpgradeBuildInSystemContract params reg GenesisHash (some config) (some blockNumber)
        (some statedb)).statedb
        = some (applyBundles blockNumber
            (logNew ["system-contract-upgrade", resolveNetwork params GenesisHash])
            (activeBundles reg (resolveNetwork params GenesisHash) config blockNumber)
            statedb).statedb
      ∧ (UpgradeBuildInSystemContract params reg GenesisHash (some config) (some blockNumber)
          (some statedb)).panic
        = (applyBundles blockNumber
            (logNew ["system-contract-upgrade", resolveNetwork params GenesisHash])
            (activeBundles reg (resolveNetwork params GenesisHash) config blockNumber)
            statedb).panic
      ∧ withoutChecks (UpgradeBuildInSystemContract params reg GenesisHash (some config)
          (some blockNumber) (some statedb)).trace
        = (applyBundles blockNumber
            (logNew ["system-contract-upgrade", resolveNetwork params GenesisHash])
            (activeBundles reg (resolveNetwork params GenesisHash) config blockNumber)
            statedb).trace
      ∧ (applyBundles blockNumber
            (logNew ["system-contract-upgrade", resolveNetwork params GenesisHash])
            (((activeBundles reg (resolveNetwork params GenesisHash) config
              blockNumber).filterMap id).map some)
            statedb).statedb
        = (applyBundles blockNumber
            (logNew ["system-contract-upgrade", resolveNetwork params GenesisHash])
            (activeBundles reg (resolveNetwork params GenesisHash) config blockNumber)
            statedb).statedb
      ∧ (applyBundles blockNumber
            (logNew ["system-contract-upgrade", resolveNetwork params GenesisHash])
            (((activeBundles reg (resolveNetwork params GenesisHash) config
              blockNumber).filterMap id).map some)
            statedb).panic
        = (applyBundles blockNumber
            (logNew ["system-contract-upgrade", resolveNetwork params GenesisHash])
            (activeBundles reg (resolveNetwork params GenesisHash) config blockNumber)
            statedb).panic
      ∧ (∀ (f1 f2 : Fork) (n1 n2 : String) (u1 u2 : Upgrade), f1 ≠ f2 ∨ n1 ≠ n2 →
          UpgradeBuildInSystemContract params ((reg.register f1 n1 u1).register f2 n2 u2)
              GenesisHash (some config) (some blockNumber) (some statedb)
            = UpgradeBuildInSystemContract params ((reg.register f2 n2 u2).register f1 n1 u1)
              GenesisHash (some config) (some blockNumber) (some statedb)) := by
  have key : (upgradeBuildIn params reg GenesisHash config blockNumber statedb).eraseChecks
      = applyBundles blockNumber
          (logNew ["system-contract-upgrade", resolveNetwork params GenesisHash])
          (activeBundles reg (resolveNetwork params GenesisHash) config blockNumber)
          statedb := by
    unfold upgradeBuildIn
    rw [upgradeOnNetwork_eq_foldl, foldl_upgradeFork_eraseChecks]
    rfl
  have present := foldl_present_bundles blockNumber
    (logNew ["system-contract-upgrade", resolveNetwork params GenesisHash])
    (activeBundles reg (resolveNetwork params GenesisHash) config blockNumber)
    (Exec.skip statedb) (Exec.skip statedb) rfl rfl
  refine ⟨?_, ?_, ?_, present.1, present.2, ?_⟩
  · rw [← key]; rfl
  · rw [← key]; rfl
  · rw [← key]; rfl
  · intro f1 f2 n1 n2 u1 u2 h
    rw [Registry.register_comm reg f1 f2 n1 n2 u1 u2 h]

/-- An instance of C5: Ramanujan and H2 both activate at block 1000 and both have a
bundle for 0xABCD; the H2 code `60 02` is the one left, and registering the
H2 bundle before or after the Ramanujan bundle gives the same result. -/
theorem UpgradeBuildInSystemContract_fork_order_witness :
    ((UpgradeBuildInSystemContract params0
        ((Registry.empty.register .H2 defaultNet (bundleAt "h2" "6002")).register
          .Ramanujan defaultNet (bundleAt "ramanujan" "6001"))
        7 (some (configAt1000 [.H2, .Ramanujan])) (some 1000) (some store0)).statedb.map
        fun st => st.code 0xABCD) = some [0x60, 0x02]
      ∧ UpgradeBuildInSystemContract params0
          ((Registry.empty.register .H2 defaultNet (bundleAt "h2" "6002")).register
            .Ramanujan defaultNet (bundleAt "ramanujan" "6001"))
          7 (some (configAt1000 [.H2, .Ramanujan])) (some 1000) (some store0)
        = UpgradeBuildInSystemContract params0
          ((Registry.empty.register .Ramanujan defaultNet (bundleAt "ramanujan" "6001")).register
            .H2 defaultNet (bundleAt "h2" "6002"))
          7 (some (configAt1000 [.H2, .Ramanujan])) (some 1000) (some store0) :=
  ⟨rfl, (UpgradeBuildInSystemContract_fork_order params0 Registry.empty 7
    (configAt1000 [.H2, .Ramanujan]) 1000 store0).2.2.2.2.2
    .H2 .Ramanujan defaultNet defaultNet (bundleAt "h2" "6002") (bundleAt "ramanujan" "6001")
    (Or.inl (by decide))⟩

/-- C6 (no activating fork): when none of the five `IsOn` predicates holds at the block
number, `UpgradeBuildInSystemContract` returns without a panic, leaves the
store as it was and makes no call besides the five `IsOn` calls; so when the
predicates hold at no block other than an activation block, the calls at the
block before it and at the block after it leave the store untouched. -/
theorem UpgradeBuildInSystemContract_no_fork (params : Params) (reg : Registry)
    (GenesisHash : Hash) (config : ChainConfig) (statedb : StateDB) :
    (∀ blockNumber : Int, (∀ fork, config.IsOn fork blockNumber = false) →
        UpgradeBuildInSystemContract params reg GenesisHash (some config) (some blockNumber)
            (some statedb)
          = ⟨some statedb, forkOrder.map fun fork => .isOn fork blockNumber, none⟩)
      ∧ (∀ activation : Int,
          (∀ fork blockNumber, config.IsOn fork blockNumber = true → blockNumber = activation) →
          UpgradeBuildInSystemContract params reg GenesisHash (some config)
              (some (activation - 1)) (some statedb)
            = ⟨some statedb, forkOrder.map fun fork => .isOn fork (activation - 1), none⟩
          ∧ UpgradeBuildInSystemContract params reg GenesisHash (some config)
              (some (activation + 1)) (some statedb)
            = ⟨some statedb, forkOrder.map fun fork => .isOn fork (activation + 1), none⟩) := by
  have off : ∀ blockNumber : Int, (∀ fork, config.IsOn fork blockNumber = false) →
      UpgradeBuildInSystemContract params reg GenesisHash (some config) (some blockNumber)
          (some statedb)
        = ⟨some statedb, forkOrder.map fun fork => .isOn fork blockNumber, none⟩ := by
    intro blockNumber h
    simp [UpgradeBuildInSystemContract, upgradeBuildIn, upgradeOnNetwork, upgradeFork, h,
      Exec.andThen, Exec.skip, forkOrder]
  refine ⟨off, ?_⟩
  intro activation only
  constructor
  · apply off
    intro fork
    cases h : config.IsOn fork (activation - 1)
    · rfl
    · have := only fork _ h
      omega
  · apply off
    intro fork
    cases h : config.IsOn fork (activation + 1)
    · rfl
    · have := only fork _ h
      omega

/-- An instance of C6: with the registry of `init` and H2 activating at block 1000,
the calls at blocks 999 and 1001 leave the store untouched. -/
theorem UpgradeBuildInSystemContract_no_fork_witness :
    UpgradeBuildInSystemContract params0 (init 0xABCD) 7 (some (configAt1000 [.H2]))
        (some (1000 - 1)) (some store0)
      = ⟨some store0, forkOrder.map fun fork => .isOn fork (1000 - 1), none⟩
    ∧ UpgradeBuildInSystemContract params0 (init 0xABCD) 7 (some (configAt1000 [.H2]))
        (some (1000 + 1)) (some store0)
      = ⟨some store0, forkOrder.map fun fork => .isOn fork (1000 + 1), none⟩ :=
  (UpgradeBuildInSystemContract_no_fork params0 (init 0xABCD) 7 (configAt1000 [.H2])
    store0).2 1000 (by
      intro fork blockNumber h
      simp only [configAt1000, ChainConfig.ofBlocks, decide_eq_true_eq] at h
      split at h
      · exact (Option.some.inj h).symm
      · cases h)

/-- C7, the claim fails: in `bundleMalformed` the second step's `Code` is not hex; the
run panics with the decode error, yet the first step's code has been written
and the failing step's before hook has run on the store. -/
theorem applySystemContractUpgrade_malformed_counterexample :
    (∃ cfg ∈ bundleMalformed.Configs, decodeFails cfg)
      ∧ (applySystemContractUpgrade (some bundleMalformed) 1000 store0 logger0).panic
          = some (.decode (.InvalidByteError 122))
      ∧ store0.code 1 = []
      ∧ (applySystemContractUpgrade (some bundleMalformed) 1000 store0 logger0).statedb.code 1
          = [0x60, 0x01]
      ∧ store0.storage 2 5 = 0
      ∧ (applySystemContractUpgrade (some bundleMalformed) 1000 store0 logger0).statedb.storage
          2 5 = 42
      ∧ (applySystemContractUpgrade (some bundleMalformed) 1000 store0 logger0).trace
          = [.info logger0 (.applyUpgrade "t" 1000), .info logger0 (.upgradeContract 1 ""),
              .setCode 1 [0x60, 0x01], .info logger0 (.upgradeContract 2 ""),
              .beforeUpgrade 1000 2] :=
  ⟨⟨{ ContractAddr := 2, Code := "zz", BeforeUpgrade := some (storeHook 5 42) },
      by simp [bundleMalformed], ⟨.InvalidByteError 122, rfl⟩⟩,
    rfl, rfl, rfl, rfl, rfl, rfl⟩

/-- C8, the claim fails: a hook-free step with `Code` the empty string at 0xABCD, which
holds `01 02 03`; the run calls `SetCode` with the empty code and the code at
0xABCD is empty afterwards. -/
theorem applySystemContractUpgrade_empty_code_counterexample :
    (bundleAt "h2" "").Configs.map (fun cfg => cfg.Code) = [""]
      ∧ store0.code 0xABCD = [1, 2, 3]
      ∧ (applySystemContractUpgrade (some (bundleAt "h2" "")) 1000 store0 logger0).panic = none
      ∧ (applySystemContractUpgrade (some (bundleAt "h2" "")) 1000 store0
          logger0).statedb.code 0xABCD = []
      ∧ (applySystemContractUpgrade (some (bundleAt "h2" "")) 1000 store0 logger0).trace
          = [.info logger0 (.applyUpgrade "h2" 1000), .info logger0 (.upgradeContract 0xABCD ""),
              .setCode 0xABCD []] :=
  ⟨rfl, rfl, rfl, rfl, rfl⟩

/-- C8 as amended (empty code is written as empty code): in a step whose `Code` is the
empty string and whose before hook, if any, returns no error, the before
hook is called, `SetCode` is called with the empty byte sequence at the
step's address, and the after hook is called on the store so written; without
an after hook the code at the step's address is empty after the step. -/
theorem upgradeStep_empty_code (blockNumber : Int) (logger : Logger) (cfg : UpgradeConfig)
    (statedb : StateDB) (empty : cfg.Code = "")
    (before : (beforeResult cfg blockNumber statedb).2 = none) :
    upgradeStep blockNumber logger cfg statedb
        = ⟨(afterResult cfg blockNumber
              ((beforeResult cfg blockNumber statedb).1.SetCode cfg.ContractAddr [])).1,
            [.info logger (.upgradeContract cfg.ContractAddr cfg.CommitUrl)]
              ++ (if cfg.BeforeUpgrade.isSome then
                    [.beforeUpgrade blockNumber cfg.ContractAddr] else [])
              ++ [.setCode cfg.ContractAddr []]
              ++ (if cfg.AfterUpgrade.isSome then
                    [.afterUpgrade blockNumber cfg.ContractAddr] else []),
            (afterResult cfg blockNumber
              ((beforeResult cfg blockNumber statedb).1.SetCode cfg.ContractAddr [])).2.map
              (UpgradeError.afterUpgrade cfg.ContractAddr)⟩
      ∧ (cfg.AfterUpgrade = none →
          (upgradeStep blockNumber logger cfg statedb).panic = none
            ∧ (upgradeStep blockNumber logger cfg statedb).statedb.code cfg.ContractAddr = [])
      ∧ (∀ name : String,
          (applySystemContractUpgrade (some ⟨name, [cfg]⟩) blockNumber statedb logger).statedb
              = (upgradeStep blockNumber logger cfg statedb).statedb
            ∧ (applySystemContractUpgrade (some ⟨name, [cfg]⟩) blockNumber statedb logger).panic
              = (upgradeStep blockNumber logger cfg statedb).panic) := by
  have hdec : hexDecodeString cfg.Code = .ok [] := by rw [empty]; rfl
  have hstep : upgradeStep blockNumber logger cfg statedb
      = ⟨(afterResult cfg blockNumber
            ((beforeResult cfg blockNumber statedb).1.SetCode cfg.ContractAddr [])).1,
          [.info logger (.upgradeContract cfg.ContractAddr cfg.CommitUrl)]
            ++ (if cfg.BeforeUpgrade.isSome then
                  [.beforeUpgrade blockNumber cfg.ContractAddr] else [])
            ++ [.setCode cfg.ContractAddr []]
            ++ (if cfg.AfterUpgrade.isSome then
                  [.afterUpgrade blockNumber cfg.ContractAddr] else []),
          (afterResult cfg blockNumber
            ((beforeResult cfg blockNumber statedb).1.SetCode cfg.ContractAddr [])).2.map
            (UpgradeError.afterUpgrade cfg.ContractAddr)⟩ := by
    unfold beforeResult afterResult at *
    cases hb : cfg.BeforeUpgrade with
    | none =>
      cases ha : cfg.AfterUpgrade <;>
      simp [upgradeStep, logInfo, runBeforeUpgrade, writeCode, runAfterUpgrade, Exec.andThen,
        Exec.skip, hb, ha, hdec]
    | some hook =>
      simp only [hb] at before
      cases ha : cfg.AfterUpgrade <;>
      simp [upgradeStep, logInfo, runBeforeUpgrade, writeCode, runAfterUpgrade, Exec.andThen,
        Exec.skip, hb, ha, hdec, before]
  refine ⟨hstep, ?_, ?_⟩
  · intro ha
    rw [hstep]
    simp [afterResult, ha, StateDB.SetCode]
  · intro name
    cases hp : (upgradeStep blockNumber logger cfg statedb).panic <;>
    simp [applySystemContractUpgrade, applyConfigs, Exec.andThen, Exec.skip, logInfo, hp]

/-- An instance of amended C8: a step with empty `Code` and both hooks at address 1; the
before hook, the write of the empty code and the after hook all take place. -/
theorem upgradeStep_empty_code_witness :
    (upgradeStep 1000 logger0
        { ContractAddr := 0xABCD, Code := "", BeforeUpgrade := some (storeHook 5 42),
          AfterUpgrade := some (copyHook 0xABCD 5 6) } store0).trace
      = [.info logger0 (.upgradeContract 0xABCD ""), .beforeUpgrade 1000 0xABCD,
          .setCode 0xABCD [], .afterUpgrade 1000 0xABCD] :=
  congrArg Exec.trace (upgradeStep_empty_code 1000 logger0
    { ContractAddr := 0xABCD, Code := "", BeforeUpgrade := some (storeHook 5 42),
      AfterUpgrade := some (copyHook 0xABCD 5 6) } store0 rfl rfl).1

/-- C9 (network resolution): provided the two known genesis hashes differ, the network
is "Mainnet" exactly for the mainnet hash, "Testnet" exactly for the testnet
hash and "Default" for every other hash; `UpgradeBuildInSystemContract` runs
lines 77-96 with that network, so two unrecognized hashes give the same
result. -/
theorem UpgradeBuildInSystemContract_network (params : Params) (GenesisHash : Hash)
    (distinct : params.MainnetGenesisHash ≠ params.TestnetGenesisHash) :
    (resolveNetwork params GenesisHash = mainNet ↔ GenesisHash = params.MainnetGenesisHash)
      ∧ (resolveNetwork params GenesisHash = testNet
          ↔ GenesisHash = params.TestnetGenesisHash)
      ∧ (resolveNetwork params GenesisHash = defaultNet
          ↔ GenesisHash ≠ params.MainnetGenesisHash ∧ GenesisHash ≠ params.TestnetGenesisHash)
      ∧ (∀ (reg : Registry) (config : ChainConfig) (blockNumber : Int) (statedb : StateDB),
          UpgradeBuildInSystemContract params reg GenesisHash (some config) (some blockNumber)
              (some statedb)
            = ⟨some (upgradeOnNetwork reg (resolveNetwork params GenesisHash) config blockNumber
                  statedb).statedb,
                (upgradeOnNetwork reg (resolveNetwork params GenesisHash) config blockNumber
                  statedb).trace,
                (upgradeOnNetwork reg (resolveNetwork params GenesisHash) config blockNumber
                  statedb).panic⟩)
      ∧ (∀ other : Hash,
          GenesisHash ≠ params.MainnetGenesisHash → GenesisHash ≠ params.TestnetGenesisHash →
          other ≠ params.MainnetGenesisHash → other ≠ params.TestnetGenesisHash →
          ∀ (reg : Registry) (config : Option ChainConfig) (blockNumber : Option Int)
            (statedb : Option StateDB),
            UpgradeBuildInSystemContract params reg GenesisHash config blockNumber statedb
              = UpgradeBuildInSystemContract params reg other config blockNumber statedb) := by
  have hmt : mainNet ≠ testNet := by decide
  have hmd : mainNet ≠ defaultNet := by decide
  have htd : testNet ≠ defaultNet := by decide
  refine ⟨?_, ?_, ?_, ?_, ?_⟩
  · unfold resolveNetwork
    by_cases h1 : GenesisHash = params.MainnetGenesisHash
    · simp [h1]
    · by_cases h2 : GenesisHash = params.TestnetGenesisHash
      · simp [h1, h2, Ne.symm hmt]
      · simp [h1, h2, Ne.symm hmd]
  · unfold resolveNetwork
    by_cases h1 : GenesisHash = params.MainnetGenesisHash
    · simp [h1, hmt, distinct]
    · by_cases h2 : GenesisHash = params.TestnetGenesisHash
      · simp [h1, h2, Ne.symm distinct]
      · simp [h1, h2, Ne.symm htd]
  · unfold resolveNetwork
    by_cases h1 : GenesisHash = params.MainnetGenesisHash
    · simp [h1, hmd]
    · by_cases h2 : GenesisHash = params.TestnetGenesisHash
      · simp [h1, h2, htd, Ne.symm distinct]
      · simp [h1, h2]
  · intro reg config blockNumber statedb
    rfl
  · intro other h1 h2 h3 h4 reg config blockNumber statedb
    have hr : resolveNetwork params GenesisHash = resolveNetwork params other := by
      simp [resolveNetwork, h1, h2, h3, h4]
    cases config <;> cases blockNumber <;> cases statedb <;>
      simp [UpgradeBuildInSystemContract, upgradeBuildIn, hr]

/-- An instance of C9: with mainnet hash 100 and testnet hash 200, the hashes 7 and 8 are
both unrecognized and give the same result on the registry of `init`. -/
theorem UpgradeBuildInSystemContract_network_witness :
    (resolveNetwork params0 7 = defaultNet
        ↔ (7 : Hash) ≠ params0.MainnetGenesisHash ∧ (7 : Hash) ≠ params0.TestnetGenesisHash)
      ∧ UpgradeBuildInSystemContract params0 (init 0xABCD) 7 (some (configAt1000 [.H2]))
          (some 1000) (some store0)
        = UpgradeBuildInSystemContract params0 (init 0xABCD) 8 (some (configAt1000 [.H2]))
          (some 1000) (some store0) :=
  ⟨(UpgradeBuildInSystemContract_network params0 7 (by decide)).2.2.1,
    (UpgradeBuildInSystemContract_network params0 7 (by decide)).2.2.2.2 8
      (by decide) (by decide) (by decide) (by decide) (init 0xABCD)
      (some (configAt1000 [.H2])) (some 1000) (some store0)⟩

/-- C10 (when the run fails): `applySystemContractUpgrade` on a bundle panics if and only
if, running the steps in order, a step is reached (every earlier step has
completed) whose before hook returns an error, or whose `Code` fails to
hex-decode, or whose after hook returns an error; otherwise it returns. A
bundle without hooks whose every `Code` is valid hex never panics. -/
theorem applySystemContractUpgrade_panic_iff (up : Upgrade) (blockNumber : Int)
    (statedb : StateDB) (logger : Logger) :
    ((applySystemContractUpgrade (some up) blockNumber statedb logger).panic ≠ none
        ↔ ∃ pre cfg post, up.Configs = pre ++ cfg :: post
            ∧ (applyConfigs blockNumber logger pre statedb).panic = none
            ∧ (beforeHookFails cfg blockNumber
                  (applyConfigs blockNumber logger pre statedb).statedb
                ∨ decodeFails cfg
                ∨ afterHookFails cfg blockNumber
                  (applyConfigs blockNumber logger pre statedb).statedb))
      ∧ (noHooks up.Configs → validCodes up.Configs →
          (applySystemContractUpgrade (some up) blockNumber statedb logger).panic = none) := by
  have hp : (applySystemContractUpgrade (some up) blockNumber statedb logger).panic
      = (applyConfigs blockNumber logger up.Configs statedb).panic := by
    simp only [applySystemContractUpgrade]
    exact Exec.andThen_panic _ _ rfl
  constructor
  · rw [hp, applyConfigs_panic_iff]
    simp only [upgradeStep_panic_iff]
  · intro hooks valid
    rw [hp]
    exact applyConfigs_noHooks_panic _ _ _ _ hooks valid

/-- An instance of C10: `bundleFailing` panics (its second step's before hook returns an
error), and a bundle of one hook-free step with code `6001` does not. -/
theorem applySystemContractUpgrade_panic_iff_witness :
    (applySystemContractUpgrade (some bundleFailing) 1000 store0 logger0).panic ≠ none
      ∧ (applySystemContractUpgrade (some (bundleAt "t" "6001")) 1000 store0 logger0).panic
          = none :=
  ⟨(applySystemContractUpgrade_panic_iff bundleFailing 1000 store0 logger0).1.mpr
      ⟨[{ ContractAddr := 1, Code := "6001" }],
        { ContractAddr := 2, Code := "6002", BeforeUpgrade := some (failHook "boom") },
        [{ ContractAddr := 3, Code := "6003", BeforeUpgrade := some (storeHook 5 42) }],
        rfl, rfl, Or.inl ⟨failHook "boom", "boom", rfl, rfl⟩⟩,
    (applySystemContractUpgrade_panic_iff (bundleAt "t" "6001") 1000 store0 logger0).2
      (by intro c hc; simp [bundleAt] at hc; subst hc; exact ⟨rfl, rfl⟩)
      (by intro c hc; simp [bundleAt] at hc; subst hc; exact ⟨_, rfl⟩)⟩

/-! ## Where and how a run stops -/

theorem upgradeStep_before_error (blockNumber : Int) (logger : Logger) (cfg : UpgradeConfig)
    (statedb : StateDB) (hook : upgradeHook) (msg : String)
    (hb : cfg.BeforeUpgrade = some hook)
    (herr : (hook blockNumber cfg.ContractAddr statedb).2 = some msg) :
    upgradeStep blockNumber logger cfg statedb
      = ⟨(hook blockNumber cfg.ContractAddr statedb).1,
          [.info logger (.upgradeContract cfg.ContractAddr cfg.CommitUrl),
            .beforeUpgrade blockNumber cfg.ContractAddr],
          some (.beforeUpgrade cfg.ContractAddr msg)⟩ := by
  simp [upgradeStep, logInfo, runBeforeUpgrade, Exec.andThen, hb, herr]

theorem upgradeStep_decode_error (blockNumber : Int) (logger : Logger) (cfg : UpgradeConfig)
    (statedb : StateDB) (err : HexError)
    (before : (beforeResult cfg blockNumber statedb).2 = none)
    (malformed : hexDecodeString cfg.Code = .error err) :
    upgradeStep blockNumber logger cfg statedb
      = ⟨(beforeResult cfg blockNumber statedb).1,
          .info logger (.upgradeContract cfg.ContractAddr cfg.CommitUrl)
            :: beforeCalls cfg blockNumber,
          some (.decode err)⟩ := by
  unfold beforeResult at before ⊢
  unfold beforeCalls
  cases hb : cfg.BeforeUpgrade with
  | none =>
    simp [upgradeStep, logInfo, runBeforeUpgrade, writeCode, Exec.andThen, Exec.skip, hb,
      malformed]
  | some hook =>
    simp only [hb] at before
    simp [upgradeStep, logInfo, runBeforeUpgrade, writeCode, Exec.andThen, hb, malformed,
      before]

theorem upgradeStep_written (blockNumber : Int) (logger : Logger) (cfg : UpgradeConfig)
    (statedb : StateDB) (code : List Byte)
    (before : (beforeResult cfg blockNumber statedb).2 = none)
    (valid : hexDecodeString cfg.Code = .ok code) :
    upgradeStep blockNumber logger cfg statedb
      = ⟨(afterResult cfg blockNumber
            ((beforeResult cfg blockNumber statedb).1.SetCode cfg.ContractAddr code)).1,
          .info logger (.upgradeContract cfg.ContractAddr cfg.CommitUrl)
            :: (beforeCalls cfg blockNumber ++ .setCode cfg.ContractAddr code
              :: afterCalls cfg blockNumber),
          (afterResult cfg blockNumber
            ((beforeResult cfg blockNumber statedb).1.SetCode cfg.ContractAddr code)).2.map
            (UpgradeError.afterUpgrade cfg.ContractAddr)⟩ := by
  unfold beforeResult afterResult at *
  unfold beforeCalls afterCalls
  cases hb : cfg.BeforeUpgrade with
  | none =>
    cases ha : cfg.AfterUpgrade <;>
    simp [upgradeStep, logInfo, runBeforeUpgrade, writeCode, runAfterUpgrade, Exec.andThen,
      Exec.skip, hb, ha, valid]
  | some hook =>
    simp only [hb] at before
    cases ha : cfg.AfterUpgrade <;>
    simp [upgradeStep, logInfo, runBeforeUpgrade, writeCode, runAfterUpgrade, Exec.andThen,
      Exec.skip, hb, ha, valid, before]

theorem applyConfigs_stops_at (blockNumber : Int) (logger : Logger)
    (pre post : List UpgradeConfig) (cfg : UpgradeConfig) (statedb : StateDB)
    (err : UpgradeError)
    (reached : (applyConfigs blockNumber logger pre statedb).panic = none)
    (stops : (upgradeStep blockNumber logger cfg
      (applyConfigs blockNumber logger pre statedb).statedb).panic = some err) :
    applyConfigs blockNumber logger (pre ++ cfg :: post) statedb
      = ⟨(upgradeStep blockNumber logger cfg
            (applyConfigs blockNumber logger pre statedb).statedb).statedb,
          (applyConfigs blockNumber logger pre statedb).trace
            ++ (upgradeStep blockNumber logger cfg
                (applyConfigs blockNumber logger pre statedb).statedb).trace,
          some err⟩ := by
  have hcons : applyConfigs blockNumber logger (cfg :: post)
      (applyConfigs blockNumber logger pre statedb).statedb
      = upgradeStep blockNumber logger cfg
          (applyConfigs blockNumber logger pre statedb).statedb := by
    simp only [applyConfigs]
    exact Exec.andThen_of_panic _ _ err stops
  rw [applyConfigs_append]
  simp only [Exec.andThen, reached, hcons, stops]

theorem applySystemContractUpgrade_stops_at (up : Upgrade) (blockNumber : Int)
    (statedb : StateDB) (logger : Logger) (pre post : List UpgradeConfig) (cfg : UpgradeConfig)
    (err : UpgradeError)
    (split : up.Configs = pre ++ cfg :: post)
    (reached : (applyConfigs blockNumber logger pre statedb).panic = none)
    (stops : (upgradeStep blockNumber logger cfg
      (applyConfigs blockNumber logger pre statedb).statedb).panic = some err) :
    applySystemContractUpgrade (some up) blockNumber statedb logger
      = ⟨(upgradeStep blockNumber logger cfg
            (applyConfigs blockNumber logger pre statedb).statedb).statedb,
          .info logger (.applyUpgrade up.UpgradeName (BigInt.Int64 blockNumber))
            :: ((applyConfigs blockNumber logger pre statedb).trace
              ++ (upgradeStep blockNumber logger cfg
                  (applyConfigs blockNumber logger pre statedb).statedb).trace),
          some err⟩ := by
  simp only [applySystemContractUpgrade, split]
  simp [Exec.andThen, logInfo,
    applyConfigs_stops_at blockNumber logger pre post cfg statedb err reached stops]

theorem upgradeStep_panic_cases (blockNumber : Int) (logger : Logger) (cfg : UpgradeConfig)
    (statedb : StateDB) (err : UpgradeError)
    (h : (upgradeStep blockNumber logger cfg statedb).panic = some err) :
    (∃ hook msg, cfg.BeforeUpgrade = some hook
        ∧ (hook blockNumber cfg.ContractAddr statedb).2 = some msg
        ∧ err = .beforeUpgrade cfg.ContractAddr msg)
      ∨ (∃ e, hexDecodeString cfg.Code = .error e ∧ err = .decode e)
      ∨ (∃ hook code msg, cfg.AfterUpgrade = some hook ∧ hexDecodeString cfg.Code = .ok code
          ∧ (hook blockNumber cfg.ContractAddr
              ((beforeResult cfg blockNumber statedb).1.SetCode cfg.ContractAddr code)).2
            = some msg
          ∧ err = .afterUpgrade cfg.ContractAddr msg) := by
  cases hb : (beforeResult cfg blockNumber statedb).2 with
  | some msg =>
    left
    unfold beforeResult at hb
    cases hh : cfg.BeforeUpgrade with
    | none => simp [hh] at hb
    | some hook =>
      simp only [hh] at hb
      rw [upgradeStep_before_error _ _ _ _ hook msg hh hb] at h
      exact ⟨hook, msg, rfl, hb, (Option.some.inj h).symm⟩
  | none =>
    right
    cases hc : hexDecodeString cfg.Code with
    | error e =>
      left
      rw [upgradeStep_decode_error _ _ _ _ e hb hc] at h
      exact ⟨e, rfl, (Option.some.inj h).symm⟩
    | ok code =>
      right
      rw [upgradeStep_written _ _ _ _ code hb hc] at h
      simp only at h
      unfold afterResult at h
      cases ha : cfg.AfterUpgrade with
      | none => simp [ha] at h
      | some hook =>
        simp only [ha] at h
        cases hm : (hook blockNumber cfg.ContractAddr
          ((beforeResult cfg blockNumber statedb).1.SetCode cfg.ContractAddr code)).2 with
        | none => simp [hm] at h
        | some msg =>
          simp only [hm, Option.map_some'] at h
          exact ⟨hook, code, msg, rfl, rfl, hm, (Option.some.inj h).symm⟩

theorem Exec.andThen_trace_prefix (e : Exec) (next : StateDB → Exec) :
    e.trace <+: (e.andThen next).trace := by
  cases e with
  | mk s t p =>
    cases p with
    | some err => simp [Exec.andThen]
    | none => simp [Exec.andThen]

theorem upgradeStep_trace_head (blockNumber : Int) (logger : Logger) (cfg : UpgradeConfig)
    (statedb : StateDB) :
    (upgradeStep blockNumber logger cfg statedb).trace.head?
      = some (.info logger (.upgradeContract cfg.ContractAddr cfg.CommitUrl)) := by
  have h : [Event.info logger (.upgradeContract cfg.ContractAddr cfg.CommitUrl)]
      <+: (upgradeStep blockNumber logger cfg statedb).trace := by
    unfold upgradeStep
    exact ((Exec.andThen_trace_prefix
      (logInfo logger (.upgradeContract cfg.ContractAddr cfg.CommitUrl) statedb) _).trans
      (Exec.andThen_trace_prefix _ _)).trans (Exec.andThen_trace_prefix _ _)
  obtain ⟨rest, hrest⟩ := h
  rw [← hrest]
  rfl

theorem applySystemContractUpgrade_panic_eq (up : Upgrade) (blockNumber : Int)
    (statedb : StateDB) (logger : Logger) :
    (applySystemContractUpgrade (some up) blockNumber statedb logger).panic
      = (applyConfigs blockNumber logger up.Configs statedb).panic := by
  simp only [applySystemContractUpgrade]
  exact Exec.andThen_panic _ _ rfl

/-- C11, the claim fails: two bundles with different names whose failing steps target
different addresses panic with the same value, the decode error alone; and
`bundleFailing` panics with the same value under another upgrade name. -/
theorem applySystemContractUpgrade_error_counterexample :
    (applySystemContractUpgrade (some ⟨"h2", [{ ContractAddr := 2, Code := "zz" }]⟩) 1000
        store0 logger0).panic = some (.decode (.InvalidByteError 122))
      ∧ (applySystemContractUpgrade (some ⟨"bruno", [{ ContractAddr := 3, Code := "zz" }]⟩)
          1000 store0 logger0).panic = some (.decode (.InvalidByteError 122))
      ∧ (applySystemContractUpgrade (some bundleFailing) 1000 store0 logger0).panic
          = some (.beforeUpgrade 2 "boom")
      ∧ (applySystemContractUpgrade (some ⟨"bruno", bundleFailing.Configs⟩) 1000 store0
          logger0).panic = some (.beforeUpgrade 2 "boom") :=
  ⟨rfl, rfl, rfl, rfl⟩

/-- C11 as amended (what a fatal error is surfaced with): when
`applySystemContractUpgrade` panics, it stopped in a step that was reached,
and the panic value carries the cause: the error text of the step's before
or after hook together with the step's address, or the decode error of the
step's `Code`. The panic value is the same under every upgrade name; the
name is in the first log line of the run (with `blockNumber.Int64()` as its
height), and the step's address is in the log line that opens the step in
which the run stopped. -/
theorem applySystemContractUpgrade_error_content (up : Upgrade) (blockNumber : Int)
    (statedb : StateDB) (logger : Logger) (err : UpgradeError)
    (fatal : (applySystemContractUpgrade (some up) blockNumber statedb logger).panic
      = some err) :
    (∃ pre cfg post, up.Configs = pre ++ cfg :: post
        ∧ (applyConfigs blockNumber logger pre statedb).panic = none
        ∧ ((∃ hook msg, cfg.BeforeUpgrade = some hook
              ∧ (hook blockNumber cfg.ContractAddr
                  (applyConfigs blockNumber logger pre statedb).statedb).2 = some msg
              ∧ err = .beforeUpgrade cfg.ContractAddr msg)
            ∨ (∃ e, hexDecodeString cfg.Code = .error e ∧ err = .decode e)
            ∨ (∃ hook code msg, cfg.AfterUpgrade = some hook
                ∧ hexDecodeString cfg.Code = .ok code
                ∧ (hook blockNumber cfg.ContractAddr
                    ((beforeResult cfg blockNumber
                      (applyConfigs blockNumber logger pre statedb).statedb).1.SetCode
                      cfg.ContractAddr code)).2 = some msg
                ∧ err = .afterUpgrade cfg.ContractAddr msg))
        ∧ (applySystemContractUpgrade (some up) blockNumber statedb logger).trace
            = .info logger (.applyUpgrade up.UpgradeName (BigInt.Int64 blockNumber))
                :: ((applyConfigs blockNumber logger pre statedb).trace
                  ++ (upgradeStep blockNumber logger cfg
                      (applyConfigs blockNumber logger pre statedb).statedb).trace)
        ∧ (upgradeStep blockNumber logger cfg
              (applyConfigs blockNumber logger pre statedb).statedb).trace.head?
            = some (.info logger (.upgradeContract cfg.ContractAddr cfg.CommitUrl)))
      ∧ (∀ name : String,
          (applySystemContractUpgrade (some ⟨name, up.Configs⟩) blockNumber statedb
            logger).panic = some err) := by
  have hloop : (applyConfigs blockNumber logger up.Configs statedb).panic = some err := by
    rw [← applySystemContractUpgrade_panic_eq]; exact fatal
  constructor
  · have hne : (applyConfigs blockNumber logger up.Configs statedb).panic ≠ none := by
      rw [hloop]; simp
    obtain ⟨pre, cfg, post, split, reached, hstep⟩ := (applyConfigs_panic_iff _ _ _ _).mp hne
    obtain ⟨err', herr'⟩ := Option.ne_none_iff_exists'.mp hstep
    have hrun := applySystemContractUpgrade_stops_at up blockNumber statedb logger pre post cfg
      err' split reached herr'
    have heq : err' = err := by
      have := fatal
      rw [hrun] at this
      exact Option.some.inj this
    subst heq
    refine ⟨pre, cfg, post, split, reached, ?_, ?_, ?_⟩
    · exact upgradeStep_panic_cases _ _ _ _ _ herr'
    · rw [hrun]
    · exact upgradeStep_trace_head _ _ _ _
  · intro name
    rw [applySystemContractUpgrade_panic_eq]
    exact hloop

/-- An instance of amended C11 on `bundleFailing`: the panic value is the before-hook
error of address 2 and stays the same under the upgrade name "bruno". -/
theorem applySystemContractUpgrade_error_content_witness :
    (applySystemContractUpgrade (some bundleFailing) 1000 store0 logger0).panic
        = some (.beforeUpgrade 2 "boom")
      ∧ (applySystemContractUpgrade (some ⟨"bruno", bundleFailing.Configs⟩) 1000 store0
          logger0).panic = some (.beforeUpgrade 2 "boom") :=
  ⟨rfl, (applySystemContractUpgrade_error_content bundleFailing 1000 store0 logger0
    (.beforeUpgrade 2 "boom") rfl).2 "bruno"⟩

/-- C14 (where a hook failure falls within its step): when step `i` is reached and its
before hook returns an error, the run ends with that hook's call: the store
is the one the hook left, and neither the step's `SetCode` nor its after hook
is called. When its after hook returns an error, the step's `SetCode` has
been called before the after hook, which ran on the store holding the new
code. In both cases the trace opens with the log line of line 109, whose
height is `blockNumber.Int64()`. -/
theorem applySystemContractUpgrade_failure_within_step (up : Upgrade) (blockNumber : Int)
    (statedb : StateDB) (logger : Logger) (pre post : List UpgradeConfig) (cfg : UpgradeConfig)
    (split : up.Configs = pre ++ cfg :: post)
    (reached : (applyConfigs blockNumber logger pre statedb).panic = none) :
    (∀ hook msg, cfg.BeforeUpgrade = some hook →
        (hook blockNumber cfg.ContractAddr
          (applyConfigs blockNumber logger pre statedb).statedb).2 = some msg →
        applySystemContractUpgrade (some up) blockNumber statedb logger
          = ⟨(hook blockNumber cfg.ContractAddr
                (applyConfigs blockNumber logger pre statedb).statedb).1,
              .info logger (.applyUpgrade up.UpgradeName (BigInt.Int64 blockNumber))
                :: ((applyConfigs blockNumber logger pre statedb).trace
                  ++ [.info logger (.upgradeContract cfg.ContractAddr cfg.CommitUrl),
                      .beforeUpgrade blockNumber cfg.ContractAddr]),
              some (.beforeUpgrade cfg.ContractAddr msg)⟩)
      ∧ (∀ hook code msg,
          (beforeResult cfg blockNumber
            (applyConfigs blockNumber logger pre statedb).statedb).2 = none →
          hexDecodeString cfg.Code = .ok code → cfg.AfterUpgrade = some hook →
          (hook blockNumber cfg.ContractAddr
            ((beforeResult cfg blockNumber
              (applyConfigs blockNumber logger pre statedb).statedb).1.SetCode
              cfg.ContractAddr code)).2 = some msg →
          applySystemContractUpgrade (some up) blockNumber statedb logger
              = ⟨(hook blockNumber cfg.ContractAddr
                    ((beforeResult cfg blockNumber
                      (applyConfigs blockNumber logger pre statedb).statedb).1.SetCode
                      cfg.ContractAddr code)).1,
                  .info logger (.applyUpgrade up.UpgradeName (BigInt.Int64 blockNumber))
                    :: ((applyConfigs blockNumber logger pre statedb).trace
                      ++ .info logger (.upgradeContract cfg.ContractAddr cfg.CommitUrl)
                        :: (beforeCalls cfg blockNumber
                          ++ [.setCode cfg.ContractAddr code,
                              .afterUpgrade blockNumber cfg.ContractAddr])),
                  some (.afterUpgrade cfg.ContractAddr msg)⟩
            ∧ ((beforeResult cfg blockNumber
                  (applyConfigs blockNumber logger pre statedb).statedb).1.SetCode
                  cfg.ContractAddr code).code cfg.ContractAddr = code) := by
  constructor
  · intro hook msg hb herr
    have hstep := upgradeStep_before_error blockNumber logger cfg
      (applyConfigs blockNumber logger pre statedb).statedb hook msg hb herr
    have hrun := applySystemContractUpgrade_stops_at up blockNumber statedb logger pre post cfg
      (.beforeUpgrade cfg.ContractAddr msg) split reached (by rw [hstep])
    rw [hrun, hstep]
  · intro hook code msg before valid ha herr
    have hstep := upgradeStep_written blockNumber logger cfg
      (applyConfigs blockNumber logger pre statedb).statedb code before valid
    have hres : afterResult cfg blockNumber
        ((beforeResult cfg blockNumber
          (applyConfigs blockNumber logger pre statedb).statedb).1.SetCode
          cfg.ContractAddr code)
        = hook blockNumber cfg.ContractAddr
          ((beforeResult cfg blockNumber
            (applyConfigs blockNumber logger pre statedb).statedb).1.SetCode
            cfg.ContractAddr code) := by
      simp [afterResult, ha]
    have hcalls : afterCalls cfg blockNumber = [.afterUpgrade blockNumber cfg.ContractAddr] := by
      simp [afterCalls, ha]
    rw [hres, herr, hcalls] at hstep
    have hrun := applySystemContractUpgrade_stops_at up blockNumber statedb logger pre post cfg
      (.afterUpgrade cfg.ContractAddr msg) split reached (by rw [hstep]; rfl)
    refine ⟨?_, by simp [StateDB.SetCode]⟩
    rw [hrun, hstep]

/-- An instance of C14: in `bundleFailing` the run ends with the failing before hook of
address 2, whose code stays empty; in `bundleAfterFailing` the code `60 02`
is in place at address 2 when the after hook fails. -/
theorem applySystemContractUpgrade_failure_within_step_witness :
    (applySystemContractUpgrade (some bundleFailing) 1000 store0 logger0).trace
        = [.info logger0 (.applyUpgrade "t" 1000), .info logger0 (.upgradeContract 1 ""),
            .setCode 1 [0x60, 0x01], .info logger0 (.upgradeContract 2 ""),
            .beforeUpgrade 1000 2]
      ∧ (applySystemContractUpgrade (some bundleAfterFailing) 1000 store0 logger0).trace
        = [.info logger0 (.applyUpgrade "t" 1000), .info logger0 (.upgradeContract 1 ""),
            .setCode 1 [0x60, 0x01], .info logger0 (.upgradeContract 2 ""),
            .beforeUpgrade 1000 2, .setCode 2 [0x60, 0x02], .afterUpgrade 1000 2]
      ∧ (applySystemContractUpgrade (some bundleAfterFailing) 1000 store0
          logger0).statedb.code 2 = [0x60, 0x02] :=
  ⟨congrArg Exec.trace
      ((applySystemContractUpgrade_failure_within_step bundleFailing 1000 store0 logger0
        [{ ContractAddr := 1, Code := "6001" }]
        [{ ContractAddr := 3, Code := "6003", BeforeUpgrade := some (storeHook 5 42) }]
        { ContractAddr := 2, Code := "6002", BeforeUpgrade := some (failHook "boom") }
        rfl rfl).1 (failHook "boom") "boom" rfl rfl),
    congrArg Exec.trace
      ((applySystemContractUpgrade_failure_within_step bundleAfterFailing 1000 store0 logger0
        [{ ContractAddr := 1, Code := "6001" }] []
        { ContractAddr := 2, Code := "6002", BeforeUpgrade := some (storeHook 5 42),
          AfterUpgrade := some (failHook "late") }
        rfl rfl).2 (failHook "late") [0x60, 0x02] "late" rfl rfl rfl rfl).1,
    rfl⟩

/-! ## Calls in sequence, and the registry of `init` -/

theorem runCalls_same_network (params : Params) (reg : Registry) (network : String)
    (calls : List Call) (statedb : StateDB)
    (same : ∀ call ∈ calls, resolveNetwork params call.GenesisHash = network) :
    runCalls params reg calls statedb = runCallsOn reg network calls statedb := by
  induction calls generalizing statedb with
  | nil => rfl
  | cons call rest ih =>
    simp only [runCalls, runCallsOn, upgradeBuildIn, same call (List.mem_cons_self _ _)]
    congr 1
    funext s
    exact ih s fun c hc => same c (List.mem_cons_of_mem _ hc)

/-- C12, the claim fails: with the registry of `init`, `GenesisHash` is the mainnet hash
at the first call and an unrecognized hash at the second. The second call
runs on the Default network and empties the code at 0xABCD; had it used the
network resolved for the first call, the code would still be `01 02 03`. -/
theorem runCalls_counterexample :
    (runCalls params0 (init 0xABCD) callsChangingGenesis store0).statedb.code 0xABCD = []
      ∧ (runCallsResolvedOnce params0 (init 0xABCD) callsChangingGenesis
          store0).statedb.code 0xABCD = [1, 2, 3] :=
  ⟨rfl, rfl⟩

/-- C12 as amended (the network is resolved at every call): each call of
`UpgradeBuildInSystemContract` runs with the network resolved from the value
`GenesisHash` holds at that call; in a sequence of calls during which
`GenesisHash` resolves to one network, in particular when it is not changed,
every call uses that network, the one resolved for the first call. -/
theorem runCalls_resolves_each_call (params : Params) (reg : Registry) (calls : List Call)
    (statedb : StateDB) :
    (∀ (call : Call) (rest : List Call),
        runCalls params reg (call :: rest) statedb
          = (upgradeOnNetwork reg (resolveNetwork params call.GenesisHash) call.config
              call.blockNumber statedb).andThen (runCalls params reg rest))
      ∧ (∀ network : String,
          (∀ call ∈ calls, resolveNetwork params call.GenesisHash = network) →
          runCalls params reg calls statedb = runCallsOn reg network calls statedb)
      ∧ (∀ GenesisHash : Hash, (∀ call ∈ calls, call.GenesisHash = GenesisHash) →
          runCalls params reg calls statedb
            = runCallsResolvedOnce params reg calls statedb) := by
  refine ⟨fun _ _ => rfl, fun network same => runCalls_same_network _ _ _ _ _ same, ?_⟩
  intro g same
  cases calls with
  | nil => rfl
  | cons first rest =>
    simp only [runCallsResolvedOnce]
    apply runCalls_same_network
    intro call hc
    rw [same call hc, same first (List.mem_cons_self _ _)]

/-- An instance of amended C12: two calls made while `GenesisHash` stays 7 both run on
the network resolved for the first of them. -/
theorem runCalls_resolves_each_call_witness :
    runCalls params0 (init 0xABCD)
        [⟨7, configAt1000 [.H2], 999⟩, ⟨7, configAt1000 [.H2], 1000⟩] store0
      = runCallsResolvedOnce params0 (init 0xABCD)
        [⟨7, configAt1000 [.H2], 999⟩, ⟨7, configAt1000 [.H2], 1000⟩] store0 :=
  (runCalls_resolves_each_call params0 (init 0xABCD)
    [⟨7, configAt1000 [.H2], 999⟩, ⟨7, configAt1000 [.H2], 1000⟩] store0).2.2 7
    (by intro call hc; simp at hc; rcases hc with rfl | rfl <;> rfl)

theorem init_table (H2Contract : Address) (fork : Fork) (network : String)
    (other : fork ≠ .H2 ∨ network ≠ defaultNet) :
    (init H2Contract).table fork network = none := by
  cases fork <;>
    simp [init, Registry.register, Registry.empty, Registry.table, mapSet] at other ⊢
  exact other

theorem init_table_h2 (H2Contract : Address) :
    (init H2Contract).table .H2 defaultNet
      = some ⟨"h2", [{ ContractAddr := H2Contract
                       CommitUrl := "https://github.com/binance-chain/bsc-genesis-contract/commit/f4bc161dac5937b8cbd4fe3089c7514c415430f9 fix: bas"
                       Code := "" }]⟩ := by
  simp [init, Registry.register, Registry.table, mapSet]

theorem upgradeFork_noop (reg : Registry) (network : String) (logger : Logger)
    (config : ChainConfig) (blockNumber : Int) (fork : Fork)
    (absent : config.IsOn fork blockNumber = true → reg.table fork network = none) :
    upgradeFork reg network logger config blockNumber fork
      = fun statedb =>
          ⟨statedb,
            .isOn fork blockNumber
              :: (if config.IsOn fork blockNumber then
                    [.info logger (.emptyUpgradeConfig blockNumber)] else []),
            none⟩ := by
  funext statedb
  cases h : config.IsOn fork blockNumber with
  | false => simp [upgradeFork, Exec.andThen, Exec.skip, h]
  | true =>
    simp [upgradeFork, Exec.andThen, h, absent h, applySystemContractUpgrade, logInfo]

theorem Exec.andThen_trace_forall (e : Exec) (next : StateDB → Exec) (P : Event → Prop)
    (he : ∀ ev ∈ e.trace, P ev) (hn : ∀ s, ∀ ev ∈ (next s).trace, P ev) :
    ∀ ev ∈ (e.andThen next).trace, P ev := by
  cases e with
  | mk s t p =>
    cases p with
    | some err => simpa [Exec.andThen] using he
    | none =>
      intro ev hev
      simp only [Exec.andThen, List.mem_append] at hev
      rcases hev with h | h
      · exact he ev h
      · exact hn s ev h

theorem upgradeFork_noop_trace (reg : Registry) (network : String) (logger : Logger)
    (config : ChainConfig) (blockNumber : Int) (fork : Fork) (statedb : StateDB)
    (absent : config.IsOn fork blockNumber = true → reg.table fork network = none) :
    ∀ ev ∈ (upgradeFork reg network logger config blockNumber fork statedb).trace,
      ev.touchesStore = false := by
  rw [upgradeFork_noop _ _ _ _ _ _ absent]
  intro ev hev
  cases h : config.IsOn fork blockNumber <;> simp [h] at hev
  · subst hev; rfl
  · rcases hev with rfl | rfl <;> rfl

theorem upgradeOnNetwork_noop (reg : Registry) (network : String) (config : ChainConfig)
    (blockNumber : Int) (statedb : StateDB)
    (absent : ∀ fork, config.IsOn fork blockNumber = true → reg.table fork network = none) :
    (upgradeOnNetwork reg network config blockNumber statedb).panic = none
      ∧ (upgradeOnNetwork reg network config blockNumber statedb).statedb = statedb
      ∧ ∀ ev ∈ (upgradeOnNetwork reg network config blockNumber statedb).trace,
          ev.touchesStore = false := by
  refine ⟨?_, ?_, ?_⟩
  · simp only [upgradeOnNetwork, upgradeFork_noop _ _ _ _ _ _ (absent _), Exec.andThen]
  · simp only [upgradeOnNetwork, upgradeFork_noop _ _ _ _ _ _ (absent _), Exec.andThen]
  · unfold upgradeOnNetwork
    exact Exec.andThen_trace_forall _ _ _
      (Exec.andThen_trace_forall _ _ _
        (Exec.andThen_trace_forall _ _ _
          (Exec.andThen_trace_forall _ _ _
            (upgradeFork_noop_trace _ _ _ _ _ _ _ (absent _))
            fun s => upgradeFork_noop_trace _ _ _ _ _ _ s (absent _))
          fun s => upgradeFork_noop_trace _ _ _ _ _ _ s (absent _))
        fun s => upgradeFork_noop_trace _ _ _ _ _ _ s (absent _))
      fun s => upgradeFork_noop_trace _ _ _ _ _ _ s (absent _)

theorem upgradeFork_init_h2 (H2Contract : Address) (logger : Logger) (config : ChainConfig)
    (blockNumber : Int) (active : config.IsOn .H2 blockNumber = true) :
    upgradeFork (init H2Contract) defaultNet logger config blockNumber .H2
      = fun statedb =>
          ⟨statedb.SetCode H2Contract [],
            [.isOn .H2 blockNumber, .info logger (.applyUpgrade "h2" (BigInt.Int64 blockNumber)),
              .info logger (.upgradeContract H2Contract
                "https://github.com/binance-chain/bsc-genesis-contract/commit/f4bc161dac5937b8cbd4fe3089c7514c415430f9 fix: bas"),
              .setCode H2Contract []],
            none⟩ := by
  funext statedb
  have hdec : hexDecodeString "" = .ok [] := rfl
  simp [upgradeFork, active, init_table_h2, applySystemContractUpgrade, applyConfigs, upgradeStep,
    logInfo, runBeforeUpgrade, writeCode, runAfterUpgrade, Exec.andThen, Exec.skip, hdec]

/-- C13 (networks without a bundle): with the registry of `init`, when `GenesisHash` is
the mainnet or the testnet hash, `UpgradeBuildInSystemContract` returns
without a panic and leaves the store as it was whichever forks activate: no
hook and no `SetCode` is called. The same holds, on any network, when
`IsOnH2` is false at the block number. -/
theorem UpgradeBuildInSystemContract_init_noop (params : Params) (H2Contract : Address)
    (GenesisHash : Hash) (config : ChainConfig) (blockNumber : Int) (statedb : StateDB) :
    ((GenesisHash = params.MainnetGenesisHash ∨ GenesisHash = params.TestnetGenesisHash) →
        (UpgradeBuildInSystemContract params (init H2Contract) GenesisHash (some config)
            (some blockNumber) (some statedb)).panic = none
          ∧ (UpgradeBuildInSystemContract params (init H2Contract) GenesisHash (some config)
              (some blockNumber) (some statedb)).statedb = some statedb
          ∧ ∀ ev ∈ (UpgradeBuildInSystemContract params (init H2Contract) GenesisHash
              (some config) (some blockNumber) (some statedb)).trace, ev.touchesStore = false)
      ∧ (config.IsOn .H2 blockNumber = false →
          (UpgradeBuildInSystemContract params (init H2Contract) GenesisHash (some config)
              (some blockNumber) (some statedb)).panic = none
            ∧ (UpgradeBuildInSystemContract params (init H2Contract) GenesisHash (some config)
                (some blockNumber) (some statedb)).statedb = some statedb
            ∧ ∀ ev ∈ (UpgradeBuildInSystemContract params (init H2Contract) GenesisHash
                (some config) (some blockNumber) (some statedb)).trace,
                ev.touchesStore = false) := by
  have lift : (∀ fork, config.IsOn fork blockNumber = true →
        (init H2Contract).table fork (resolveNetwork params GenesisHash) = none) →
      (UpgradeBuildInSystemContract params (init H2Contract) GenesisHash (some config)
          (some blockNumber) (some statedb)).panic = none
        ∧ (UpgradeBuildInSystemContract params (init H2Contract) GenesisHash (some config)
            (some blockNumber) (some statedb)).statedb = some statedb
        ∧ ∀ ev ∈ (UpgradeBuildInSystemContract params (init H2Contract) GenesisHash
            (some config) (some blockNumber) (some statedb)).trace, ev.touchesStore = false := by
    intro absent
    obtain ⟨hp, hs, ht⟩ := upgradeOnNetwork_noop (init H2Contract)
      (resolveNetwork params GenesisHash) config blockNumber statedb absent
    exact ⟨hp, congrArg some hs, ht⟩
  constructor
  · intro known
    apply lift
    intro fork _
    apply init_table
    right
    have hmd : mainNet ≠ defaultNet := by decide
    have htd : testNet ≠ defaultNet := by decide
    unfold resolveNetwork
    split
    · exact hmd
    · split
      · exact htd
      · rename_i h1 h2
        rcases known with h | h
        · exact absurd h h1
        · exact absurd h h2
  · intro off
    apply lift
    intro fork active
    apply init_table
    left
    intro hf
    subst hf
    rw [off] at active
    cases active

/-- An instance of C13: on the mainnet hash with every fork activating at block 1000,
and on an unrecognized hash with every fork but H2 activating, the store is
left as it was. -/
theorem UpgradeBuildInSystemContract_init_noop_witness :
    (UpgradeBuildInSystemContract params0 (init 0xABCD) 100
        (some (configAt1000 [.Ramanujan, .Niels, .MirrorSync, .Bruno, .H2])) (some 1000)
        (some store0)).statedb = some store0
      ∧ (UpgradeBuildInSystemContract params0 (init 0xABCD) 7
          (some (configAt1000 [.Ramanujan, .Niels, .MirrorSync, .Bruno])) (some 1000)
          (some store0)).statedb = some store0 :=
  ⟨((UpgradeBuildInSystemContract_init_noop params0 0xABCD 100
      (configAt1000 [.Ramanujan, .Niels, .MirrorSync, .Bruno, .H2]) 1000 store0).1
      (Or.inl rfl)).2.1,
    ((UpgradeBuildInSystemContract_init_noop params0 0xABCD 7
      (configAt1000 [.Ramanujan, .Niels, .MirrorSync, .Bruno]) 1000 store0).2 rfl).2.1⟩

/-- C17 (the H2 upgrade of `init` on the Default network): with the registry of `init`
and `GenesisHash` neither the mainnet nor the testnet hash, at a block number
where `IsOnH2` holds `UpgradeBuildInSystemContract` returns without a panic
and leaves the store with the empty code at `H2Contract`, whatever code was
there; the code elsewhere, the balances and the storage are as before, and
the one call handed the store is `SetCode(H2Contract, [])`. -/
theorem UpgradeBuildInSystemContract_init_h2 (params : Params) (H2Contract : Address)
    (GenesisHash : Hash) (config : ChainConfig) (blockNumber : Int) (statedb : StateDB)
    (notMain : GenesisHash ≠ params.MainnetGenesisHash)
    (notTest : GenesisHash ≠ params.TestnetGenesisHash)
    (active : config.IsOn .H2 blockNumber = true) :
    (UpgradeBuildInSystemContract params (init H2Contract) GenesisHash (some config)
        (some blockNumber) (some statedb)).panic = none
      ∧ (UpgradeBuildInSystemContract params (init H2Contract) GenesisHash (some config)
          (some blockNumber) (some statedb)).statedb = some (statedb.SetCode H2Contract [])
      ∧ (statedb.SetCode H2Contract []).code H2Contract = []
      ∧ (∀ a, a ≠ H2Contract → (statedb.SetCode H2Contract []).code a = statedb.code a)
      ∧ (statedb.SetCode H2Contract []).balance = statedb.balance
      ∧ (statedb.SetCode H2Contract []).storage = statedb.storage
      ∧ (UpgradeBuildInSystemContract params (init H2Contract) GenesisHash (some config)
          (some blockNumber) (some statedb)).trace.filter Event.touchesStore
          = [.setCode H2Contract []] := by
  have hnet : resolveNetwork params GenesisHash = defaultNet := by
    simp [resolveNetwork, notMain, notTest]
  have absent : ∀ fork, fork ≠ .H2 → config.IsOn fork blockNumber = true →
      (init H2Contract).table fork defaultNet = none :=
    fun fork hf _ => init_table _ _ _ (Or.inl hf)
  have hrun : upgradeBuildIn params (init H2Contract) GenesisHash config blockNumber statedb
      = ⟨statedb.SetCode H2Contract [],
          ((((.isOn .Ramanujan blockNumber
              :: (if config.IsOn .Ramanujan blockNumber then
                    [.info (logNew ["system-contract-upgrade", defaultNet])
                      (.emptyUpgradeConfig blockNumber)] else []))
            ++ (.isOn .Niels blockNumber
              :: (if config.IsOn .Niels blockNumber then
                    [.info (logNew ["system-contract-upgrade", defaultNet])
                      (.emptyUpgradeConfig blockNumber)] else [])))
            ++ (.isOn .MirrorSync blockNumber
              :: (if config.IsOn .MirrorSync blockNumber then
                    [.info (logNew ["system-contract-upgrade", defaultNet])
                      (.emptyUpgradeConfig blockNumber)] else [])))
            ++ (.isOn .Bruno blockNumber
              :: (if config.IsOn .Bruno blockNumber then
                    [.info (logNew ["system-contract-upgrade", defaultNet])
                      (.emptyUpgradeConfig blockNumber)] else [])))
            ++ [.isOn .H2 blockNumber,
                .info (logNew ["system-contract-upgrade", defaultNet])
                  (.applyUpgrade "h2" (BigInt.Int64 blockNumber)),
                .info (logNew ["system-contract-upgrade", defaultNet])
                  (.upgradeContract H2Contract
                    "https://github.com/binance-chain/bsc-genesis-contract/commit/f4bc161dac5937b8cbd4fe3089c7514c415430f9 fix: bas"),
                .setCode H2Contract []],
          none⟩ := by
    simp only [upgradeBuildIn, hnet, upgradeOnNetwork,
      upgradeFork_noop _ _ _ _ _ .Ramanujan (absent _ (by decide)),
      upgradeFork_noop _ _ _ _ _ .Niels (absent _ (by decide)),
      upgradeFork_noop _ _ _ _ _ .MirrorSync (absent _ (by decide)),
      upgradeFork_noop _ _ _ _ _ .Bruno (absent _ (by decide)),
      upgradeFork_init_h2 _ _ _ _ active, Exec.andThen]
  refine ⟨?_, ?_, ?_, ?_, rfl, rfl, ?_⟩
  · simp only [UpgradeBuildInSystemContract, hrun]
  · simp only [UpgradeBuildInSystemContract, hrun]
  · simp [StateDB.SetCode]
  · intro a ha
    simp [StateDB.SetCode, ha]
  · simp only [UpgradeBuildInSystemContract, hrun]
    cases config.IsOn .Ramanujan blockNumber <;> cases config.IsOn .Niels blockNumber <;>
      cases config.IsOn .MirrorSync blockNumber <;> cases config.IsOn .Bruno blockNumber <;>
      simp [Event.touchesStore]

/-- An instance of C17: on an unrecognized hash with H2 activating at block 1000 the code
`01 02 03` at 0xABCD is replaced by the empty code. -/
theorem UpgradeBuildInSystemContract_init_h2_witness :
    store0.code 0xABCD = [1, 2, 3]
      ∧ (UpgradeBuildInSystemContract params0 (init 0xABCD) 7 (some (configAt1000 [.H2]))
          (some 1000) (some store0)).statedb = some (store0.SetCode 0xABCD [])
      ∧ (store0.SetCode 0xABCD []).code 0xABCD = [] :=
  ⟨rfl, (UpgradeBuildInSystemContract_init_h2 params0 0xABCD 7 (configAt1000 [.H2]) 1000 store0
      (by decide) (by decide) rfl).2.1,
    (UpgradeBuildInSystemContract_init_h2 params0 0xABCD 7 (configAt1000 [.H2]) 1000 store0
      (by decide) (by decide) rfl).2.2.1⟩

/-- C19 (the registry of `init`): the lookup of (H2, "Default") yields the bundle named
"h2" with one step, which targets `H2Contract`, has the empty `Code` and has
neither hook; the lookup of every other pair of a fork and a network, among
them all other pairs over Mainnet, Testnet and Default, is absent. -/
theorem init_registry (H2Contract : Address) :
    (∃ up cfg, (init H2Contract).table .H2 defaultNet = some up
        ∧ up.UpgradeName = "h2" ∧ up.Configs = [cfg]
        ∧ cfg.ContractAddr = H2Contract ∧ cfg.Code = ""
        ∧ cfg.BeforeUpgrade = none ∧ cfg.AfterUpgrade = none)
      ∧ (∀ (fork : Fork) (network : String), fork ≠ .H2 ∨ network ≠ defaultNet →
          (init H2Contract).table fork network = none)
      ∧ (∀ fork ∈ forkOrder, ∀ network ∈ [mainNet, testNet, defaultNet],
          ((init H2Contract).table fork network).isSome = true
            ↔ fork = .H2 ∧ network = defaultNet) := by
  refine ⟨⟨_, _, init_table_h2 H2Contract, rfl, rfl, rfl, rfl, rfl, rfl⟩,
    fun fork network other => init_table _ _ _ other, ?_⟩
  intro fork _ network _
  constructor
  · intro h
    by_contra hne
    rw [init_table _ _ _ (by
      by_cases hf : fork = .H2
      · exact Or.inr fun hn => hne ⟨hf, hn⟩
      · exact Or.inl hf)] at h
    cases h
  · rintro ⟨rfl, rfl⟩
    rw [init_table_h2]
    rfl

/-- An instance of C19: the registry of `init` has no H2 bundle for Mainnet. -/
theorem init_registry_witness :
    (init 0xABCD).table .H2 mainNet = none :=
  (init_registry 0xABCD).2.1 .H2 mainNet (Or.inr (by decide))

/-! ## Inside one step -/

/-- C15 (composition within one step): in a step whose hooks, when present, return no
error and whose `Code` decodes to `code`, the run returns, the store after
the step is the after hook's result on the store obtained by writing `code`
at the step's address into the before hook's result on the initial store,
and the calls are the log line, the before hook, `SetCode`, the after hook,
each once when present. The before hook is called on the initial store (the
old code at the address) and the after hook on a store holding `code` at the
address. -/
theorem upgradeStep_composition (blockNumber : Int) (logger : Logger) (cfg : UpgradeConfig)
    (statedb : StateDB) (code : List Byte)
    (before : (beforeResult cfg blockNumber statedb).2 = none)
    (valid : hexDecodeString cfg.Code = .ok code)
    (after : (afterResult cfg blockNumber
      ((beforeResult cfg blockNumber statedb).1.SetCode cfg.ContractAddr code)).2 = none) :
    (upgradeStep blockNumber logger cfg statedb).panic = none
      ∧ (upgradeStep blockNumber logger cfg statedb).statedb
        = (afterResult cfg blockNumber
            ((beforeResult cfg blockNumber statedb).1.SetCode cfg.ContractAddr code)).1
      ∧ (upgradeStep blockNumber logger cfg statedb).trace
        = .info logger (.upgradeContract cfg.ContractAddr cfg.CommitUrl)
            :: (beforeCalls cfg blockNumber ++ .setCode cfg.ContractAddr code
              :: afterCalls cfg blockNumber)
      ∧ ((beforeResult cfg blockNumber statedb).1.SetCode cfg.ContractAddr code).code
          cfg.ContractAddr = code
      ∧ (∀ hb ha : upgradeHook, cfg.BeforeUpgrade = some hb → cfg.AfterUpgrade = some ha →
          (upgradeStep blockNumber logger cfg statedb).statedb
              = (ha blockNumber cfg.ContractAddr
                  ((hb blockNumber cfg.ContractAddr statedb).1.SetCode cfg.ContractAddr
                    code)).1
            ∧ (upgradeStep blockNumber logger cfg statedb).trace
              = [.info logger (.upgradeContract cfg.ContractAddr cfg.CommitUrl),
                  .beforeUpgrade blockNumber cfg.ContractAddr,
                  .setCode cfg.ContractAddr code,
                  .afterUpgrade blockNumber cfg.ContractAddr]) := by
  have hstep := upgradeStep_written blockNumber logger cfg statedb code before valid
  refine ⟨?_, ?_, ?_, ?_, ?_⟩
  · rw [hstep, after]; rfl
  · rw [hstep]
  · rw [hstep]
  · simp [StateDB.SetCode]
  · intro hb ha hbefore hafter
    rw [hstep]
    simp [beforeResult, afterResult, beforeCalls, afterCalls, hbefore, hafter]

/-- An instance of C15: a step at address 1 whose before hook stores 42 in slot 5 and
whose after hook copies slot 5 to slot 6; afterwards the address holds the
code `60 01` and both slots hold 42. -/
theorem upgradeStep_composition_witness :
    (upgradeStep 1000 logger0
        { ContractAddr := 1, Code := "6001", BeforeUpgrade := some (storeHook 5 42),
          AfterUpgrade := some (copyHook 1 5 6) } store0).panic = none
      ∧ (upgradeStep 1000 logger0
          { ContractAddr := 1, Code := "6001", BeforeUpgrade := some (storeHook 5 42),
            AfterUpgrade := some (copyHook 1 5 6) } store0).statedb.storage 1 6 = 42
      ∧ (upgradeStep 1000 logger0
          { ContractAddr := 1, Code := "6001", BeforeUpgrade := some (storeHook 5 42),
            AfterUpgrade := some (copyHook 1 5 6) } store0).statedb.code 1 = [0x60, 0x01] :=
  ⟨(upgradeStep_composition 1000 logger0
      { ContractAddr := 1, Code := "6001", BeforeUpgrade := some (storeHook 5 42),
        AfterUpgrade := some (copyHook 1 5 6) } store0 [0x60, 0x01] rfl rfl rfl).1,
    rfl, rfl⟩

theorem filter_isHookCall_beforeCalls (cfg : UpgradeConfig) (blockNumber : Int) :
    (beforeCalls cfg blockNumber).filter Event.isHookCall = beforeCalls cfg blockNumber := by
  unfold beforeCalls
  split <;> rfl

theorem filter_isHookCall_afterCalls (cfg : UpgradeConfig) (blockNumber : Int) :
    (afterCalls cfg blockNumber).filter Event.isHookCall = afterCalls cfg blockNumber := by
  unfold afterCalls
  split <;> rfl

theorem upgradeStep_hookCalls (blockNumber : Int) (logger : Logger) (cfg : UpgradeConfig)
    (statedb : StateDB) :
    ∃ rest, (upgradeStep blockNumber logger cfg statedb).trace.filter Event.isHookCall ++ rest
        = beforeCalls cfg blockNumber ++ afterCalls cfg blockNumber
      ∧ ((upgradeStep blockNumber logger cfg statedb).panic = none → rest = []) := by
  cases hb : (beforeResult cfg blockNumber statedb).2 with
  | some msg =>
    unfold beforeResult at hb
    cases hh : cfg.BeforeUpgrade with
    | none => simp [hh] at hb
    | some hook =>
      simp only [hh] at hb
      rw [upgradeStep_before_error _ _ _ _ hook msg hh hb]
      refine ⟨afterCalls cfg blockNumber, ?_, ?_⟩
      · simp [beforeCalls, hh, List.filter, Event.isHookCall]
      · intro h; cases h
  | none =>
    cases hc : hexDecodeString cfg.Code with
    | error e =>
      rw [upgradeStep_decode_error _ _ _ _ e hb hc]
      refine ⟨afterCalls cfg blockNumber, ?_, ?_⟩
      · simp [List.filter_cons, Event.isHookCall, filter_isHookCall_beforeCalls]
      · intro h; cases h
    | ok code =>
      rw [upgradeStep_written _ _ _ _ code hb hc]
      refine ⟨[], ?_, fun _ => rfl⟩
      simp [List.filter_cons, List.filter_append, Event.isHookCall,
        filter_isHookCall_beforeCalls, filter_isHookCall_afterCalls]

theorem applyConfigs_hookCalls (blockNumber : Int) (logger : Logger)
    (cfgs : List UpgradeConfig) (statedb : StateDB) :
    ∃ rest, (applyConfigs blockNumber logger cfgs statedb).trace.filter Event.isHookCall ++ rest
        = hookCalls blockNumber cfgs
      ∧ ((applyConfigs blockNumber logger cfgs statedb).panic = none → rest = []) := by
  induction cfgs generalizing statedb with
  | nil => exact ⟨[], rfl, fun _ => rfl⟩
  | cons cfg tail ih =>
    obtain ⟨r1, h1, n1⟩ := upgradeStep_hookCalls blockNumber logger cfg statedb
    simp only [applyConfigs, hookCalls, List.flatMap_cons]
    cases hp : (upgradeStep blockNumber logger cfg statedb).panic with
    | some err =>
      rw [Exec.andThen_of_panic _ _ err hp]
      refine ⟨r1 ++ hookCalls blockNumber tail, ?_, ?_⟩
      · rw [← List.append_assoc, h1]; rfl
      · intro h; rw [hp] at h; cases h
    | none =>
      obtain ⟨r2, h2, n2⟩ := ih (upgradeStep blockNumber logger cfg statedb).statedb
      have hr1 := n1 hp
      subst hr1
      rw [List.append_nil] at h1
      refine ⟨r2, ?_, ?_⟩
      · rw [Exec.andThen_trace _ _ hp, List.filter_append, h1, List.append_assoc, h2]
        rfl
      · intro h
        rw [Exec.andThen_panic _ _ hp] at h
        exact n2 h

/-- C16 (arguments of the hooks): every step of a run is the one-step run of its own
`cfg` at the block number handed to `applySystemContractUpgrade`, on the
store the earlier steps left. In that step the store and the error are those
the hooks return when applied to that block number, the step's own
`ContractAddr` and the current store: a failing before hook leaves its store
and its error; otherwise the after hook is applied to the before hook's store
with the new code written. The hook calls of a run are an initial part of the
list that has, for each step in order, the two calls with that block number
and that address, all of it when the run returns; and the run of a step
depends on its hooks only through their values at those two arguments. -/
theorem applySystemContractUpgrade_hook_arguments (up : Upgrade) (blockNumber : Int)
    (statedb : StateDB) (logger : Logger) :
    (applySystemContractUpgrade (some up) blockNumber statedb logger).trace.filter
          Event.isHookCall <+: hookCalls blockNumber up.Configs
      ∧ ((applySystemContractUpgrade (some up) blockNumber statedb logger).panic = none →
          (applySystemContractUpgrade (some up) blockNumber statedb logger).trace.filter
            Event.isHookCall = hookCalls blockNumber up.Configs)
      ∧ (∀ (cfg : UpgradeConfig) (hook other : upgradeHook) (st : StateDB),
          (∀ x, hook blockNumber cfg.ContractAddr x = other blockNumber cfg.ContractAddr x) →
          upgradeStep blockNumber logger { cfg with BeforeUpgrade := some hook } st
              = upgradeStep blockNumber logger { cfg with BeforeUpgrade := some other } st
            ∧ upgradeStep blockNumber logger { cfg with AfterUpgrade := some hook } st
              = upgradeStep blockNumber logger { cfg with AfterUpgrade := some other } st)
      ∧ (∀ (pre post : List UpgradeConfig) (cfg : UpgradeConfig),
          up.Configs = pre ++ cfg :: post →
          applySystemContractUpgrade (some up) blockNumber statedb logger
            = (((logInfo logger (.applyUpgrade up.UpgradeName (BigInt.Int64 blockNumber))
                  statedb).andThen (applyConfigs blockNumber logger pre)).andThen
                (upgradeStep blockNumber logger cfg)).andThen
                (applyConfigs blockNumber logger post))
      ∧ (∀ (cfg : UpgradeConfig) (st : StateDB) (hb : upgradeHook),
          cfg.BeforeUpgrade = some hb →
          (∀ msg, (hb blockNumber cfg.ContractAddr st).2 = some msg →
              upgradeStep blockNumber logger cfg st
                = ⟨(hb blockNumber cfg.ContractAddr st).1,
                    [.info logger (.upgradeContract cfg.ContractAddr cfg.CommitUrl),
                      .beforeUpgrade blockNumber cfg.ContractAddr],
                    some (.beforeUpgrade cfg.ContractAddr msg)⟩)
            ∧ ((hb blockNumber cfg.ContractAddr st).2 = none →
                ∀ code, hexDecodeString cfg.Code = .ok code →
                  (cfg.AfterUpgrade = none →
                      (upgradeStep blockNumber logger cfg st).statedb
                          = (hb blockNumber cfg.ContractAddr st).1.SetCode cfg.ContractAddr code
                        ∧ (upgradeStep blockNumber logger cfg st).panic = none)
                    ∧ (∀ ha, cfg.AfterUpgrade = some ha →
                        (upgradeStep blockNumber logger cfg st).statedb
                            = (ha blockNumber cfg.ContractAddr
                                ((hb blockNumber cfg.ContractAddr st).1.SetCode
                                  cfg.ContractAddr code)).1
                          ∧ (upgradeStep blockNumber logger cfg st).panic
                            = (ha blockNumber cfg.ContractAddr
                                ((hb blockNumber cfg.ContractAddr st).1.SetCode
                                  cfg.ContractAddr code)).2.map
                                (UpgradeError.afterUpgrade cfg.ContractAddr))))
      ∧ (∀ (cfg : UpgradeConfig) (st : StateDB) (ha : upgradeHook) (code : List Byte),
          cfg.BeforeUpgrade = none → cfg.AfterUpgrade = some ha →
          hexDecodeString cfg.Code = .ok code →
          (upgradeStep blockNumber logger cfg st).statedb
              = (ha blockNumber cfg.ContractAddr (st.SetCode cfg.ContractAddr code)).1
            ∧ (upgradeStep blockNumber logger cfg st).panic
              = (ha blockNumber cfg.ContractAddr (st.SetCode cfg.ContractAddr code)).2.map
                  (UpgradeError.afterUpgrade cfg.ContractAddr)) := by
  obtain ⟨rest, hrest, hnone⟩ := applyConfigs_hookCalls blockNumber logger up.Configs statedb
  have htrace : (applySystemContractUpgrade (some up) blockNumber statedb logger).trace.filter
      Event.isHookCall
      = (applyConfigs blockNumber logger up.Configs statedb).trace.filter
          Event.isHookCall := by
    simp only [applySystemContractUpgrade]
    rw [Exec.andThen_trace _ _ rfl]
    rfl
  refine ⟨⟨rest, by rw [htrace, hrest]⟩, ?_, ?_, ?_, ?_, ?_⟩
  · intro h
    rw [applySystemContractUpgrade_panic_eq] at h
    rw [htrace, ← hrest, hnone h, List.append_nil]
  · intro cfg hook other st agree
    constructor
    · have hf : runBeforeUpgrade { cfg with BeforeUpgrade := some hook } blockNumber
          = runBeforeUpgrade { cfg with BeforeUpgrade := some other } blockNumber := by
        funext s
        simp [runBeforeUpgrade, agree]
      unfold upgradeStep
      rw [hf]
      rfl
    · have hf : (fun s => runAfterUpgrade { cfg with AfterUpgrade := some hook } blockNumber s)
          = fun s => runAfterUpgrade { cfg with AfterUpgrade := some other } blockNumber s := by
        funext s
        simp [runAfterUpgrade, agree]
      simp only [upgradeStep]
      exact congrArg _ hf
  · intro pre post cfg split
    simp only [applySystemContractUpgrade, split]
    rw [Exec.andThen_assoc, Exec.andThen_assoc]
    congr 1
    funext s
    rw [applyConfigs_append]
    congr 1
  · intro cfg st hb hbefore
    have hres : beforeResult cfg blockNumber st = hb blockNumber cfg.ContractAddr st := by
      simp [beforeResult, hbefore]
    refine ⟨fun msg hmsg => upgradeStep_before_error _ _ _ _ hb msg hbefore hmsg, ?_⟩
    intro hok code hcode
    have hstep := upgradeStep_written blockNumber logger cfg st code (by rw [hres]; exact hok)
      hcode
    rw [hres] at hstep
    constructor
    · intro hafter
      rw [hstep]
      simp [afterResult, hafter]
    · intro ha hafter
      rw [hstep]
      simp [afterResult, hafter]
  · intro cfg st ha code hbefore hafter hcode
    have hres : beforeResult cfg blockNumber st = (st, none) := by
      simp [beforeResult, hbefore]
    have hstep := upgradeStep_written blockNumber logger cfg st code (by rw [hres]) hcode
    rw [hres] at hstep
    rw [hstep]
    simp [afterResult, hafter]

/-- An instance of C16. On `bundleHooked` there are four hook calls, all at block 1000,
two with address 1 followed by two with address 2. On `bundleRecording` the
hook of each step records the arguments it is called with: 1000 and 1 in the
first step, 1000 and 2 in the second. -/
theorem applySystemContractUpgrade_hook_arguments_witness :
    (applySystemContractUpgrade (some bundleHooked) 1000 store0 logger0).trace.filter
        Event.isHookCall
      = [.beforeUpgrade 1000 1, .afterUpgrade 1000 1, .beforeUpgrade 1000 2,
          .afterUpgrade 1000 2]
    ∧ (upgradeStep 1000 logger0
        { ContractAddr := 1, Code := "6001", BeforeUpgrade := some recordHook } store0).statedb
      = (recordHook 1000 1 store0).1.SetCode 1 [0x60, 0x01]
    ∧ [(applySystemContractUpgrade (some bundleRecording) 1000 store0 logger0).statedb.storage
          1 0,
        (applySystemContractUpgrade (some bundleRecording) 1000 store0 logger0).statedb.storage
          1 1,
        (applySystemContractUpgrade (some bundleRecording) 1000 store0 logger0).statedb.storage
          2 0,
        (applySystemContractUpgrade (some bundleRecording) 1000 store0 logger0).statedb.storage
          2 1]
      = [1000, 1, 1000, 2] :=
  ⟨(applySystemContractUpgrade_hook_arguments bundleHooked 1000 store0 logger0).2.1 rfl,
    ((((applySystemContractUpgrade_hook_arguments bundleRecording 1000 store0
      logger0).2.2.2.2.1
      { ContractAddr := 1, Code := "6001", BeforeUpgrade := some recordHook } store0
      recordHook rfl).2 rfl [0x60, 0x01] rfl).1 rfl).1,
    rfl⟩

/-! ## Frame of a bundle without hooks -/

theorem applyConfigs_noHooks_frame (blockNumber : Int) (logger : Logger)
    (cfgs : List UpgradeConfig) (statedb : StateDB)
    (hooks : noHooks cfgs) (valid : validCodes cfgs) :
    (applyConfigs blockNumber logger cfgs statedb).statedb.balance = statedb.balance
      ∧ (applyConfigs blockNumber logger cfgs statedb).statedb.storage = statedb.storage
      ∧ ∀ ev ∈ (applyConfigs blockNumber logger cfgs statedb).trace, ev.touchesStore = true →
          ∃ cfg ∈ cfgs, ∃ code, hexDecodeString cfg.Code = .ok code
            ∧ ev = .setCode cfg.ContractAddr code := by
  induction cfgs generalizing statedb with
  | nil => exact ⟨rfl, rfl, fun ev hev => by cases hev⟩
  | cons cfg rest ih =>
    obtain ⟨code, hc⟩ := valid cfg (List.mem_cons_self _ _)
    obtain ⟨hb, ha⟩ := hooks cfg (List.mem_cons_self _ _)
    have hstep := upgradeStep_noHooks blockNumber logger cfg statedb code hb ha hc
    obtain ⟨ih1, ih2, ih3⟩ := ih (statedb.SetCode cfg.ContractAddr code)
      (fun c hm => hooks c (List.mem_cons_of_mem _ hm))
      (fun c hm => valid c (List.mem_cons_of_mem _ hm))
    simp only [applyConfigs, hstep, Exec.andThen]
    refine ⟨ih1, ih2, ?_⟩
    intro ev hev touches
    simp only [List.cons_append, List.nil_append, List.mem_cons] at hev
    rcases hev with h | h | h
    · subst h; cases touches
    · exact ⟨cfg, List.mem_cons_self _ _, code, hc, h⟩
    · obtain ⟨c, hm, code', hc', he⟩ := ih3 ev h touches
      exact ⟨c, List.mem_cons_of_mem _ hm, code', hc', he⟩

/-- C18 (frame of a hook-free bundle): on a bundle without hooks whose every `Code` is
valid hex, `applySystemContractUpgrade` returns and the only calls handed the
store are `SetCode` calls at the `ContractAddr` of a step; the code at every
address that is no step's `ContractAddr`, the balances and the storage are as
before. -/
theorem applySystemContractUpgrade_noHooks_frame (up : Upgrade) (blockNumber : Int)
    (statedb : StateDB) (logger : Logger)
    (hooks : noHooks up.Configs) (valid : validCodes up.Configs) :
    (applySystemContractUpgrade (some up) blockNumber statedb logger).panic = none
      ∧ (∀ a, (∀ cfg ∈ up.Configs, cfg.ContractAddr ≠ a) →
          (applySystemContractUpgrade (some up) blockNumber statedb logger).statedb.code a
            = statedb.code a)
      ∧ (applySystemContractUpgrade (some up) blockNumber statedb logger).statedb.balance
          = statedb.balance
      ∧ (applySystemContractUpgrade (some up) blockNumber statedb logger).statedb.storage
          = statedb.storage
      ∧ (∀ ev ∈ (applySystemContractUpgrade (some up) blockNumber statedb logger).trace,
          ev.touchesStore = true →
          ∃ cfg ∈ up.Configs, ∃ code, hexDecodeString cfg.Code = .ok code
            ∧ ev = .setCode cfg.ContractAddr code) := by
  obtain ⟨hbal, hsto, htr⟩ :=
    applyConfigs_noHooks_frame blockNumber logger up.Configs statedb hooks valid
  have hs : (applySystemContractUpgrade (some up) blockNumber statedb logger).statedb
      = (applyConfigs blockNumber logger up.Configs statedb).statedb := by
    simp only [applySystemContractUpgrade]
    exact Exec.andThen_statedb _ _ rfl
  refine ⟨?_, ?_, ?_, ?_, ?_⟩
  · rw [applySystemContractUpgrade_panic_eq]
    exact applyConfigs_noHooks_panic _ _ _ _ hooks valid
  · intro a other
    rw [hs]
    exact applyConfigs_noHooks_code_other _ _ _ _ a hooks valid other
  · rw [hs]; exact hbal
  · rw [hs]; exact hsto
  · intro ev hev touches
    simp only [applySystemContractUpgrade] at hev
    rw [Exec.andThen_trace _ _ rfl] at hev
    simp only [logInfo, List.singleton_append, List.mem_cons] at hev
    rcases hev with h | h
    · subst h; cases touches
    · exact htr ev h touches

/-- An instance of C18: a hook-free bundle writing at addresses 1 and 7 leaves the code
`01 02 03` at 0xABCD in place. -/
theorem applySystemContractUpgrade_noHooks_frame_witness :
    (applySystemContractUpgrade
        (some ⟨"t", [{ ContractAddr := 1, Code := "6001" }, { ContractAddr := 7, Code := "" }]⟩)
        1000 store0 logger0).statedb.code 0xABCD = [1, 2, 3] :=
  (applySystemContractUpgrade_noHooks_frame
    ⟨"t", [{ ContractAddr := 1, Code := "6001" }, { ContractAddr := 7, Code := "" }]⟩
    1000 store0 logger0
    (by intro c hc; simp at hc; rcases hc with rfl | rfl <;> exact ⟨rfl, rfl⟩)
    (by intro c hc; simp at hc; rcases hc with rfl | rfl <;> exact ⟨_, rfl⟩)).2.1 0xABCD
    (by intro c hc; simp at hc; rcases hc with rfl | rfl <;> decide)

/-! ## The decode criterion -/

theorem fromHexChar_eq_none_iff (b : Nat) : fromHexChar b = none ↔ ¬ isHexByte b := by
  unfold fromHexChar isHexByte
  split_ifs with h1 h2 h3
  · simp; omega
  · simp; omega
  · simp; omega
  · simp; omega

theorem hexDecode_ok_iff : ∀ bs : List Nat,
    (∃ code, hexDecode bs = .ok code) ↔ bs.length % 2 = 0 ∧ ∀ b ∈ bs, isHexByte b
  | [] => by simp [hexDecode]
  | [p] => by
    cases hp : fromHexChar p <;> simp [hexDecode, hp]
  | p :: q :: rest => by
    have ih := hexDecode_ok_iff rest
    have hlen : (p :: q :: rest).length % 2 = rest.length % 2 := by
      simp only [List.length_cons]; omega
    rw [hlen]
    cases hp : fromHexChar p with
    | none =>
      have := (fromHexChar_eq_none_iff p).mp hp
      simp [hexDecode, hp, this]
    | some a =>
      have hpb : isHexByte p := by
        by_contra h
        rw [(fromHexChar_eq_none_iff p).mpr h] at hp
        cases hp
      cases hq : fromHexChar q with
      | none =>
        have := (fromHexChar_eq_none_iff q).mp hq
        simp [hexDecode, hp, hq, this]
      | some b =>
        have hqb : isHexByte q := by
          by_contra h
          rw [(fromHexChar_eq_none_iff q).mpr h] at hq
          cases hq
        cases hr : hexDecode rest with
        | error e =>
          have hno : ¬ ∃ code, hexDecode rest = .ok code := by
            rw [hr]; simp
          rw [ih] at hno
          simp only [hexDecode, hp, hq, hr]
          constructor
          · rintro ⟨code, h⟩; cases h
          · rintro ⟨h1, h2⟩
            exact absurd ⟨h1, fun x hx => h2 x (by simp [hx])⟩ hno
        | ok code =>
          have hyes : ∃ code, hexDecode rest = .ok code := ⟨code, hr⟩
          rw [ih] at hyes
          simp only [hexDecode, hp, hq, hr]
          constructor
          · intro _
            refine ⟨hyes.1, ?_⟩
            intro x hx
            simp only [List.mem_cons] at hx
            rcases hx with rfl | rfl | hx
            · exact hpb
            · exact hqb
            · exact hyes.2 x hx
          · intro _
            exact ⟨_, rfl⟩

theorem utf8Bytes_hex (c : Char) :
    ((∀ b ∈ utf8Bytes c, isHexByte b) ↔ isHexDigit c)
      ∧ (isHexDigit c → utf8Bytes c = [c.toNat]) := by
  unfold utf8Bytes isHexDigit isHexByte
  simp only []
  split_ifs with h1 h2 h3
  · simp
  · simp; omega
  · simp; omega
  · simp; omega

theorem flatMap_utf8Bytes_hex (cs : List Char) :
    ((∀ b ∈ cs.flatMap utf8Bytes, isHexByte b) ↔ ∀ c ∈ cs, isHexDigit c)
      ∧ ((∀ c ∈ cs, isHexDigit c) → (cs.flatMap utf8Bytes).length = cs.length) := by
  induction cs with
  | nil => simp
  | cons c rest ih =>
    constructor
    · simp only [List.flatMap_cons, List.mem_append, List.mem_cons, forall_eq_or_imp]
      rw [← (utf8Bytes_hex c).1, ← ih.1]
      constructor
      · intro h
        exact ⟨fun b hb => h b (Or.inl hb), fun b hb => h b (Or.inr hb)⟩
      · rintro ⟨h1, h2⟩ b (hb | hb)
        · exact h1 b hb
        · exact h2 b hb
    · intro h
      have hc := (utf8Bytes_hex c).2 (h c (List.mem_cons_self _ _))
      have hr := ih.2 fun x hx => h x (List.mem_cons_of_mem _ hx)
      simp [List.flatMap_cons, hc, hr]

theorem hexDecodeString_ok_iff (s : String) :
    (∃ code, hexDecodeString s = .ok code)
      ↔ s.length % 2 = 0 ∧ ∀ c ∈ s.toList, isHexDigit c := by
  unfold hexDecodeString stringBytes
  rw [hexDecode_ok_iff]
  have hlen : s.length = s.toList.length := rfl
  constructor
  · rintro ⟨h1, h2⟩
    have hc := (flatMap_utf8Bytes_hex s.toList).1.mp h2
    rw [(flatMap_utf8Bytes_hex s.toList).2 hc] at h1
    exact ⟨by rw [hlen]; exact h1, hc⟩
  · rintro ⟨h1, h2⟩
    refine ⟨?_, (flatMap_utf8Bytes_hex s.toList).1.mpr h2⟩
    rw [(flatMap_utf8Bytes_hex s.toList).2 h2, ← hlen]
    exact h1

theorem fromHexChar_hexUpper (b : Nat) :
    fromHexChar (hexUpper b) = fromHexChar b ∧ (fromHexChar b = none → hexUpper b = b) := by
  unfold hexUpper
  split_ifs with h
  · constructor
    · have h1 : ¬ (48 ≤ b ∧ b ≤ 57) := by omega
      have h2 : ¬ (48 ≤ b - 32 ∧ b - 32 ≤ 57) := by omega
      have h3 : ¬ (97 ≤ b - 32 ∧ b - 32 ≤ 102) := by omega
      have h4 : 65 ≤ b - 32 ∧ b - 32 ≤ 70 := by omega
      have h5 : b - 32 - 65 + 10 = b - 97 + 10 := by omega
      simp only [fromHexChar, h1, h2, h3, h4, h, if_true, if_false, and_self, h5]
    · intro hn
      have := (fromHexChar_eq_none_iff b).mp hn
      exact absurd (Or.inr (Or.inl h)) this
  · exact ⟨rfl, fun _ => rfl⟩

theorem hexDecode_hexUpper : ∀ bs : List Nat, hexDecode (bs.map hexUpper) = hexDecode bs
  | [] => rfl
  | [p] => by
    obtain ⟨h1, h2⟩ := fromHexChar_hexUpper p
    cases hp : fromHexChar p with
    | none => simp [hexDecode, h1, hp, h2 hp]
    | some a => simp [hexDecode, h1, hp]
  | p :: q :: rest => by
    obtain ⟨p1, p2⟩ := fromHexChar_hexUpper p
    obtain ⟨q1, q2⟩ := fromHexChar_hexUpper q
    have ih := hexDecode_hexUpper rest
    cases hp : fromHexChar p with
    | none => simp [hexDecode, p1, hp, p2 hp]
    | some a =>
      cases hq : fromHexChar q with
      | none => simp [hexDecode, p1, q1, hp, hq, q2 hq]
      | some b => simp [hexDecode, p1, q1, hp, hq, ih]

theorem hexDecodeString_odd_or_0x (code : String)
    (bad : code.length % 2 = 1 ∨ ∃ rest, code = "0x" ++ rest) :
    ∃ err, hexDecodeString code = .error err := by
  have hfail : ¬ ∃ bytes, hexDecodeString code = .ok bytes := by
    rw [hexDecodeString_ok_iff]
    rintro ⟨h1, h2⟩
    rcases bad with h | ⟨rest, h⟩
    · omega
    · have hx : 'x' ∈ code.toList := by
        rw [h]
        simp [String.toList, String.data_append]
      have := h2 _ hx
      revert this
      unfold isHexDigit isHexByte
      decide
  cases hd : hexDecodeString code with
  | ok bytes => exact absurd ⟨bytes, hd⟩ hfail
  | error err => exact ⟨err, rfl⟩

/-- C20 (decode criterion): a `Code` decodes exactly when its length is even and all its
characters are among 0-9, a-f, A-F, and replacing the letters a-f by A-F
changes nothing in the result of the decoder. So a bundle with a hook-free
step whose `Code` has odd length or starts with "0x" always panics; when
that step is reached, the run stops in it with the decode error, on the
store the earlier steps left and with the step's log line as its last call:
the step's code is not written. The first call of the run is the log line of
line 109, whose height is `blockNumber.Int64()`. -/
theorem applySystemContractUpgrade_decode_criterion :
    (∀ code : String, (∃ bytes, hexDecodeString code = .ok bytes)
        ↔ code.length % 2 = 0 ∧ ∀ c ∈ code.toList, isHexDigit c)
      ∧ (∀ bs : List Nat, hexDecode (bs.map hexUpper) = hexDecode bs)
      ∧ (∀ (up : Upgrade) (blockNumber : Int) (statedb : StateDB) (logger : Logger)
          (pre post : List UpgradeConfig) (cfg : UpgradeConfig),
          up.Configs = pre ++ cfg :: post →
          cfg.BeforeUpgrade = none → cfg.AfterUpgrade = none →
          (cfg.Code.length % 2 = 1 ∨ ∃ rest, cfg.Code = "0x" ++ rest) →
          (applySystemContractUpgrade (some up) blockNumber statedb logger).panic ≠ none
            ∧ ((applyConfigs blockNumber logger pre statedb).panic = none →
                ∃ err, hexDecodeString cfg.Code = .error err
                  ∧ applySystemContractUpgrade (some up) blockNumber statedb logger
                    = ⟨(applyConfigs blockNumber logger pre statedb).statedb,
                        .info logger (.applyUpgrade up.UpgradeName (BigInt.Int64 blockNumber))
                          :: ((applyConfigs blockNumber logger pre statedb).trace
                            ++ [.info logger
                                  (.upgradeContract cfg.ContractAddr cfg.CommitUrl)]),
                        some (.decode err)⟩)) := by
  refine ⟨hexDecodeString_ok_iff, hexDecode_hexUpper, ?_⟩
  intro up blockNumber statedb logger pre post cfg split hb _ bad
  obtain ⟨err, herr⟩ := hexDecodeString_odd_or_0x cfg.Code bad
  have hstep : ∀ st, upgradeStep blockNumber logger cfg st
      = ⟨st, [.info logger (.upgradeContract cfg.ContractAddr cfg.CommitUrl)],
          some (.decode err)⟩ := by
    intro st
    have hbefore : (beforeResult cfg blockNumber st).2 = none := by simp [beforeResult, hb]
    rw [upgradeStep_decode_error _ _ _ _ err hbefore herr]
    simp [beforeResult, beforeCalls, hb]
  have hreached : (applyConfigs blockNumber logger pre statedb).panic = none →
      applySystemContractUpgrade (some up) blockNumber statedb logger
        = ⟨(applyConfigs blockNumber logger pre statedb).statedb,
            .info logger (.applyUpgrade up.UpgradeName (BigInt.Int64 blockNumber))
              :: ((applyConfigs blockNumber logger pre statedb).trace
                ++ [.info logger (.upgradeContract cfg.ContractAddr cfg.CommitUrl)]),
            some (.decode err)⟩ := by
    intro reached
    rw [applySystemContractUpgrade_stops_at up blockNumber statedb logger pre post cfg
      (.decode err) split reached (by rw [hstep]), hstep]
  constructor
  · cases hpre : (applyConfigs blockNumber logger pre statedb).panic with
    | none => rw [hreached hpre]; simp
    | some e =>
      rw [applySystemContractUpgrade_panic_eq, split, applyConfigs_append,
        Exec.andThen_of_panic _ _ e hpre, hpre]
      simp
  · intro reached
    exact ⟨err, herr, hreached reached⟩

/-- An instance of C20: a step at 0xABCD with `Code` "0x6001" after a step at address 1;
the run panics on the byte `x` and the code `01 02 03` at 0xABCD is left in
place; the upper-case "6F" and the lower-case "6f" decode to the same byte. -/
theorem applySystemContractUpgrade_decode_criterion_witness :
    (applySystemContractUpgrade
        (some ⟨"t", [{ ContractAddr := 1, Code := "6001" },
          { ContractAddr := 0xABCD, Code := "0x6001" }]⟩)
        1000 store0 logger0).panic ≠ none
      ∧ (applySystemContractUpgrade
          (some ⟨"t", [{ ContractAddr := 1, Code := "6001" },
            { ContractAddr := 0xABCD, Code := "0x6001" }]⟩)
          1000 store0 logger0).panic = some (.decode (.InvalidByteError 120))
      ∧ (applySystemContractUpgrade
          (some ⟨"t", [{ ContractAddr := 1, Code := "6001" },
            { ContractAddr := 0xABCD, Code := "0x6001" }]⟩)
          1000 store0 logger0).statedb.code 0xABCD = [1, 2, 3]
      ∧ hexDecodeString "6F" = hexDecodeString "6f" :=
  ⟨(applySystemContractUpgrade_decode_criterion.2.2
      ⟨"t", [{ ContractAddr := 1, Code := "6001" },
        { ContractAddr := 0xABCD, Code := "0x6001" }]⟩
      1000 store0 logger0 [{ ContractAddr := 1, Code := "6001" }] []
      { ContractAddr := 0xABCD, Code := "0x6001" } rfl rfl rfl
      (Or.inr ⟨"6001", by decide⟩)).1,
    rfl, rfl, rfl⟩

/-! ## Repeated addresses, empty bundles and the nil guard -/

/-- C21 (last write wins): on a bundle without hooks whose every `Code` is valid hex,
the code stored after `applySystemContractUpgrade` at the address of a step
that no later step targets is the decoded `Code` of that step, however many
earlier steps target the same address. -/
theorem applySystemContractUpgrade_last_write_wins (up : Upgrade) (blockNumber : Int)
    (statedb : StateDB) (logger : Logger) (pre post : List UpgradeConfig) (cfg : UpgradeConfig)
    (code : List Byte)
    (split : up.Configs = pre ++ cfg :: post)
    (hooks : noHooks up.Configs) (valid : validCodes up.Configs)
    (decoded : hexDecodeString cfg.Code = .ok code)
    (last : ∀ c ∈ post, c.ContractAddr ≠ cfg.ContractAddr) :
    (applySystemContractUpgrade (some up) blockNumber statedb logger).panic = none
      ∧ (applySystemContractUpgrade (some up) blockNumber statedb logger).statedb.code
          cfg.ContractAddr = code := by
  have hpre : noHooks pre ∧ validCodes pre :=
    ⟨fun c hm => hooks c (by rw [split]; exact List.mem_append_left _ hm),
      fun c hm => valid c (by rw [split]; exact List.mem_append_left _ hm)⟩
  have hpost : noHooks post ∧ validCodes post :=
    ⟨fun c hm => hooks c (by rw [split]; simp [hm]),
      fun c hm => valid c (by rw [split]; simp [hm])⟩
  have hcfg := hooks cfg (by rw [split]; simp)
  have hstep := fun st =>
    upgradeStep_noHooks blockNumber logger cfg st code hcfg.1 hcfg.2 decoded
  constructor
  · rw [applySystemContractUpgrade_panic_eq]
    exact applyConfigs_noHooks_panic _ _ _ _ hooks valid
  · simp only [applySystemContractUpgrade]
    rw [Exec.andThen_statedb _ _ rfl, split, applyConfigs_append,
      Exec.andThen_statedb _ _ (applyConfigs_noHooks_panic _ _ _ _ hpre.1 hpre.2)]
    simp only [applyConfigs]
    rw [Exec.andThen_statedb _ _ (by rw [hstep]),
      applyConfigs_noHooks_code_other _ _ _ _ cfg.ContractAddr hpost.1 hpost.2 last, hstep]
    simp [StateDB.SetCode]

/-- An instance of C21: three steps at 0xABCD with codes `6001`, `6002`, `6003` and
one step elsewhere in between; the code left at 0xABCD is `60 03`. -/
theorem applySystemContractUpgrade_last_write_wins_witness :
    (applySystemContractUpgrade
        (some ⟨"t", [{ ContractAddr := 0xABCD, Code := "6001" },
          { ContractAddr := 0xABCD, Code := "6002" }, { ContractAddr := 7, Code := "00" },
          { ContractAddr := 0xABCD, Code := "6003" }, { ContractAddr := 7, Code := "01" }]⟩)
        1000 store0 logger0).statedb.code 0xABCD = [0x60, 0x03] :=
  (applySystemContractUpgrade_last_write_wins
    ⟨"t", [{ ContractAddr := 0xABCD, Code := "6001" },
      { ContractAddr := 0xABCD, Code := "6002" }, { ContractAddr := 7, Code := "00" },
      { ContractAddr := 0xABCD, Code := "6003" }, { ContractAddr := 7, Code := "01" }]⟩
    1000 store0 logger0
    [{ ContractAddr := 0xABCD, Code := "6001" }, { ContractAddr := 0xABCD, Code := "6002" },
      { ContractAddr := 7, Code := "00" }]
    [{ ContractAddr := 7, Code := "01" }]
    { ContractAddr := 0xABCD, Code := "6003" } [0x60, 0x03] rfl
    (by
      intro c hc
      simp at hc
      rcases hc with rfl | rfl | rfl | rfl | rfl <;> exact ⟨rfl, rfl⟩)
    (by
      intro c hc
      simp at hc
      rcases hc with rfl | rfl | rfl | rfl | rfl <;> exact ⟨_, rfl⟩)
    rfl (by intro c hc; simp at hc; subst hc; decide)).2

/-- C22 (bundle with zero steps): on a non-nil bundle whose `Configs` is empty,
`applySystemContractUpgrade` returns without a panic, leaves the store as
it was, and its only call is the log line of line 109, with the upgrade name
and the height `blockNumber.Int64()`. -/
theorem applySystemContractUpgrade_no_steps (name : String) (blockNumber : Int)
    (statedb : StateDB) (logger : Logger) :
    (applySystemContractUpgrade (some ⟨name, []⟩) blockNumber statedb logger).panic = none
      ∧ (applySystemContractUpgrade (some ⟨name, []⟩) blockNumber statedb logger).statedb
          = statedb
      ∧ (applySystemContractUpgrade (some ⟨name, []⟩) blockNumber statedb logger).trace
          = [.info logger (.applyUpgrade name (BigInt.Int64 blockNumber))] :=
  ⟨rfl, rfl, rfl⟩

/-- An instance of C22 at block 2^63, outside the `int64` range: the store is left as it
was and the one log line carries the wrapped height -2^63. -/
theorem applySystemContractUpgrade_no_steps_witness :
    (applySystemContractUpgrade (some ⟨"t", []⟩) 9223372036854775808 store0 logger0).panic
        = none
      ∧ (applySystemContractUpgrade (some ⟨"t", []⟩) 9223372036854775808 store0
          logger0).statedb = store0
      ∧ (applySystemContractUpgrade (some ⟨"t", []⟩) 9223372036854775808 store0
          logger0).trace = [.info logger0 (.applyUpgrade "t" (-9223372036854775808))] :=
  applySystemContractUpgrade_no_steps "t" 9223372036854775808 store0 logger0

/-- C23 (nil guard): when the config, the block number or the store handed to
`UpgradeBuildInSystemContract` is nil, the call returns without a panic and
without any call at all: no `IsOn` predicate is evaluated, no hook is called
and no code is written; the store, when there is one, is as it was. This
holds whatever the registry, `GenesisHash` and the other arguments are. -/
theorem UpgradeBuildInSystemContract_nil_guard (params : Params) (reg : Registry)
    (GenesisHash : Hash) (config : Option ChainConfig) (blockNumber : Option Int)
    (statedb : Option StateDB)
    (absent : config = none ∨ blockNumber = none ∨ statedb = none) :
    (UpgradeBuildInSystemContract params reg GenesisHash config blockNumber statedb).panic
        = none
      ∧ (UpgradeBuildInSystemContract params reg GenesisHash config blockNumber statedb).trace
        = []
      ∧ (UpgradeBuildInSystemContract params reg GenesisHash config blockNumber statedb).statedb
        = statedb := by
  cases config with
  | none => exact ⟨rfl, rfl, rfl⟩
  | some c =>
    cases blockNumber with
    | none => exact ⟨rfl, rfl, rfl⟩
    | some b =>
      cases statedb with
      | none => exact ⟨rfl, rfl, rfl⟩
      | some st =>
        rcases absent with h | h | h <;> cases h

/-- An instance of C23: with every fork activating at block 1000 and a bundle registered
for H2, a call without a block number makes no call and leaves the store. -/
theorem UpgradeBuildInSystemContract_nil_guard_witness :
    (UpgradeBuildInSystemContract params0 (init 0xABCD) 7
        (some (configAt1000 [.Ramanujan, .Niels, .MirrorSync, .Bruno, .H2])) none
        (some store0)).panic = none
      ∧ (UpgradeBuildInSystemContract params0 (init 0xABCD) 7
          (some (configAt1000 [.Ramanujan, .Niels, .MirrorSync, .Bruno, .H2])) none
          (some store0)).trace = []
      ∧ (UpgradeBuildInSystemContract params0 (init 0xABCD) 7
          (some (configAt1000 [.Ramanujan, .Niels, .MirrorSync, .Bruno, .H2])) none
          (some store0)).statedb = some store0 :=
  UpgradeBuildInSystemContract_nil_guard params0 (init 0xABCD) 7
    (some (configAt1000 [.Ramanujan, .Niels, .MirrorSync, .Bruno, .H2])) none (some store0)
    (Or.inr (Or.inl rfl))

/-! ## A malformed `Code` -/

theorem applySystemContractUpgrade_eq (up : Upgrade) (blockNumber : Int) (statedb : StateDB)
    (logger : Logger) :
    applySystemContractUpgrade (some up) blockNumber statedb logger
      = ⟨(applyConfigs blockNumber logger up.Configs statedb).statedb,
          .info logger (.applyUpgrade up.UpgradeName (BigInt.Int64 blockNumber))
            :: (applyConfigs blockNumber logger up.Configs statedb).trace,
          (applyConfigs blockNumber logger up.Configs statedb).panic⟩ := by
  cases h : (applyConfigs blockNumber logger up.Configs statedb).panic <;>
    simp [applySystemContractUpgrade, Exec.andThen, logInfo, h]

theorem applyConfigs_append_of_panic (blockNumber : Int) (logger : Logger)
    (pre rest : List UpgradeConfig) (statedb : StateDB) (err : UpgradeError)
    (h : (applyConfigs blockNumber logger pre statedb).panic = some err) :
    applyConfigs blockNumber logger (pre ++ rest) statedb
      = applyConfigs blockNumber logger pre statedb := by
  rw [applyConfigs_append]
  exact Exec.andThen_of_panic _ _ err h

theorem upgradeStep_malformed (blockNumber : Int) (logger : Logger) (cfg : UpgradeConfig)
    (statedb : StateDB) (err : HexError) (malformed : hexDecodeString cfg.Code = .error err) :
    (∃ e, (upgradeStep blockNumber logger cfg statedb).panic = some e)
      ∧ (upgradeStep blockNumber logger cfg statedb).trace
          <+: .info logger (.upgradeContract cfg.ContractAddr cfg.CommitUrl)
            :: beforeCalls cfg blockNumber := by
  cases hb : (beforeResult cfg blockNumber statedb).2 with
  | some msg =>
    unfold beforeResult at hb
    cases hh : cfg.BeforeUpgrade with
    | none => simp [hh] at hb
    | some hook =>
      simp only [hh] at hb
      rw [upgradeStep_before_error _ _ _ _ hook msg hh hb]
      exact ⟨⟨_, rfl⟩, by simp [beforeCalls, hh]⟩
  | none =>
    rw [upgradeStep_decode_error _ _ _ _ err hb malformed]
    exact ⟨⟨_, rfl⟩, List.prefix_refl _⟩

/-- C7 as amended (malformed hex is rejected before the step's own code write): a bundle
with a step whose `Code` does not decode always panics, and its run (store,
calls, panic value) is the run of the bundle cut off after that step. After
the calls of the earlier steps the trace holds at most the step's log line
and its before-hook call: the step's `SetCode`, its after hook and the later
steps are not performed. When the step is reached and its before hook, if
any, returns no error, the panic value is the decode error and the store is
the one the earlier steps and this before hook left; if the step is the first
one and has no before hook, the store is untouched. -/
theorem applySystemContractUpgrade_malformed_stops (up : Upgrade) (blockNumber : Int)
    (statedb : StateDB) (logger : Logger) (pre post : List UpgradeConfig) (cfg : UpgradeConfig)
    (err : HexError)
    (split : up.Configs = pre ++ cfg :: post)
    (malformed : hexDecodeString cfg.Code = .error err) :
    (applySystemContractUpgrade (some up) blockNumber statedb logger).panic ≠ none
      ∧ applySystemContractUpgrade (some up) blockNumber statedb logger
          = applySystemContractUpgrade (some ⟨up.UpgradeName, pre ++ [cfg]⟩) blockNumber
              statedb logger
      ∧ (∃ calls,
          (applySystemContractUpgrade (some up) blockNumber statedb logger).trace
              = .info logger (.applyUpgrade up.UpgradeName (BigInt.Int64 blockNumber))
                  :: ((applyConfigs blockNumber logger pre statedb).trace ++ calls)
            ∧ calls <+: .info logger (.upgradeContract cfg.ContractAddr cfg.CommitUrl)
                :: beforeCalls cfg blockNumber)
      ∧ ((applyConfigs blockNumber logger pre statedb).panic = none →
          (beforeResult cfg blockNumber
            (applyConfigs blockNumber logger pre statedb).statedb).2 = none →
          (applySystemContractUpgrade (some up) blockNumber statedb logger).panic
              = some (.decode err)
            ∧ (applySystemContractUpgrade (some up) blockNumber statedb logger).statedb
              = (beforeResult cfg blockNumber
                  (applyConfigs blockNumber logger pre statedb).statedb).1
            ∧ (applySystemContractUpgrade (some up) blockNumber statedb logger).trace
              = .info logger (.applyUpgrade up.UpgradeName (BigInt.Int64 blockNumber))
                  :: ((applyConfigs blockNumber logger pre statedb).trace
                    ++ .info logger (.upgradeContract cfg.ContractAddr cfg.CommitUrl)
                      :: beforeCalls cfg blockNumber)
            ∧ (pre = [] → cfg.BeforeUpgrade = none →
                (applySystemContractUpgrade (some up) blockNumber statedb logger).statedb
                  = statedb)) := by
  have hcut : applyConfigs blockNumber logger (pre ++ cfg :: post) statedb
      = applyConfigs blockNumber logger (pre ++ [cfg]) statedb
      ∧ (applyConfigs blockNumber logger (pre ++ cfg :: post) statedb).panic ≠ none
      ∧ ∃ calls, (applyConfigs blockNumber logger (pre ++ cfg :: post) statedb).trace
            = (applyConfigs blockNumber logger pre statedb).trace ++ calls
          ∧ calls <+: .info logger (.upgradeContract cfg.ContractAddr cfg.CommitUrl)
              :: beforeCalls cfg blockNumber := by
    cases hpre : (applyConfigs blockNumber logger pre statedb).panic with
    | some e =>
      rw [applyConfigs_append_of_panic _ _ _ _ _ e hpre,
        applyConfigs_append_of_panic _ _ _ _ _ e hpre]
      exact ⟨rfl, by rw [hpre]; simp, [], by simp, List.nil_prefix⟩
    | none =>
      obtain ⟨⟨e, he⟩, hcalls⟩ := upgradeStep_malformed blockNumber logger cfg
        (applyConfigs blockNumber logger pre statedb).statedb err malformed
      rw [applyConfigs_stops_at blockNumber logger pre post cfg statedb e hpre he,
        applyConfigs_stops_at blockNumber logger pre [] cfg statedb e hpre he]
      exact ⟨rfl, by simp, _, rfl, hcalls⟩
  obtain ⟨hsame, hpanic, calls, htrace, hprefix⟩ := hcut
  refine ⟨?_, ?_, ?_, ?_⟩
  · rw [applySystemContractUpgrade_panic_eq, split]
    exact hpanic
  · rw [applySystemContractUpgrade_eq, applySystemContractUpgrade_eq, split, hsame]
  · refine ⟨calls, ?_, hprefix⟩
    rw [applySystemContractUpgrade_eq, split, htrace]
  · intro reached before
    have hstep := upgradeStep_decode_error blockNumber logger cfg
      (applyConfigs blockNumber logger pre statedb).statedb err before malformed
    have hrun := applySystemContractUpgrade_stops_at up blockNumber statedb logger pre post cfg
      (.decode err) split reached (by rw [hstep])
    rw [hstep] at hrun
    refine ⟨by rw [hrun], by rw [hrun], by rw [hrun], ?_⟩
    intro hnil hb
    rw [hrun]
    subst hnil
    simp [beforeResult, hb, applyConfigs, Exec.skip]

/-- An instance of amended C7 on `bundleMalformed`: the run panics, with the decode
error, on the store the first step and the second step's before hook left,
and address 2 has received no code. -/
theorem applySystemContractUpgrade_malformed_stops_witness :
    (applySystemContractUpgrade (some bundleMalformed) 1000 store0 logger0).panic ≠ none
      ∧ (applySystemContractUpgrade (some bundleMalformed) 1000 store0 logger0).panic
        = some (.decode (.InvalidByteError 122))
      ∧ (applySystemContractUpgrade (some bundleMalformed) 1000 store0 logger0).statedb
        = (beforeResult { ContractAddr := 2, Code := "zz", BeforeUpgrade := some (storeHook 5 42) }
            1000
            (applyConfigs 1000 logger0 [{ ContractAddr := 1, Code := "6001" }] store0).statedb).1
      ∧ (applySystemContractUpgrade (some bundleMalformed) 1000 store0 logger0).statedb.code 2
        = [] :=
  ⟨(applySystemContractUpgrade_malformed_stops bundleMalformed 1000 store0 logger0
      [{ ContractAddr := 1, Code := "6001" }] []
      { ContractAddr := 2, Code := "zz", BeforeUpgrade := some (storeHook 5 42) }
      (.InvalidByteError 122) rfl rfl).1,
    ((applySystemContractUpgrade_malformed_stops bundleMalformed 1000 store0 logger0
      [{ ContractAddr := 1, Code := "6001" }] []
      { ContractAddr := 2, Code := "zz", BeforeUpgrade := some (storeHook 5 42) }
      (.InvalidByteError 122) rfl rfl).2.2.2 rfl rfl).1,
    ((applySystemContractUpgrade_malformed_stops bundleMalformed 1000 store0 logger0
      [{ ContractAddr := 1, Code := "6001" }] []
      { ContractAddr := 2, Code := "zz", BeforeUpgrade := some (storeHook 5 42) }
      (.InvalidByteError 122) rfl rfl).2.2.2 rfl rfl).2.1,
    rfl⟩

end systemcontract
